import Mathlib

/-!
Verification of the Eagle Eye scraper's core record pipeline.

The development shallowly embeds the record-assembly, normalization, export
and merge logic of `eagle_eye_videos.py`, `eagle_eye_streams.py`,
`eagle_eye_shorts.py`, `eagle_eye_utils.py` and `eagle_eye_main.py`.

Python strings are modelled as `List Char` (`PyStr`).  Python exceptions are
modelled with `Except PyErr`; the channel-level `try/except` of
`scrape_channel` is modelled by the loop driver returning the records
accumulated before a failure together with the failure, mirroring the fact
that the caught exception leaves the already-appended `video_data` intact.

Python `float` values are modelled exactly, as a sign, a natural mantissa and
a power-of-ten exponent, together with `inf`/`nan` markers; a parsed decimal
whose magnitude reaches `2 ^ 1024` overflows to `inf`, as CPython's
`float(...)` does (the model uses the threshold `2 ^ 1024`; CPython rounds to
`inf` from `(2 - 2 ^ (-53)) * 2 ^ 1023`, a boundary sliver no claim goes
near).  Rounding of decimal literals to binary doubles is not modelled: on
every input appearing in the claims the exact value and the double coincide.
-/

deriving instance DecidableEq for Except

namespace EagleEye

/-- Python `str` is modelled as a list of characters. -/
abbrev PyStr := List Char

/-- Shorthand turning a Lean string literal into the `PyStr` model. -/
def pstr (s : String) : PyStr := s.data

/-- Python errors the embedded code can raise. -/
inductive PyErr where
  | indexError
  | valueError
  | overflowError
deriving DecidableEq

/-! ## String primitives used by the source -/

/-- Python `s.split(sep)` for a one-character separator: splits on every
occurrence, keeping empty pieces; `"".split(sep) == ['']`. -/
def splitChar (sep : Char) : PyStr → List PyStr
  | [] => [[]]
  | c :: rest =>
    match splitChar sep rest with
    | [] => [[]]
    | g :: gs => if c = sep then [] :: g :: gs else (c :: g) :: gs

/-- Python `s.split(sep)[0]`: `split` never returns an empty list, so the
default of `headD` is never used. -/
def firstTok (sep : Char) (s : PyStr) : PyStr := (splitChar sep s).headD []

/-- Python `s.split(sep)[-1]`: `split` never returns an empty list, so the
default of `getLastD` is never used. -/
def lastSeg (sep : Char) (s : PyStr) : PyStr := (splitChar sep s).getLastD []

/-- Python whitespace as stripped by `str.strip()` and `float(...)`. -/
def isPyWs (c : Char) : Bool :=
  c = ' ' || c = '\t' || c = '\n' || c = '\r' || c = '\x0b' || c = '\x0c'

/-- Python `s.strip()`. -/
def pyStrip (s : PyStr) : PyStr :=
  ((s.dropWhile isPyWs).reverse.dropWhile isPyWs).reverse

/-- Python extended slice `l[0::2]`: every second element starting at 0. -/
def sliceStep2 {α : Type} : List α → List α
  | [] => []
  | [a] => [a]
  | a :: _ :: rest => a :: sliceStep2 rest

/-- Python `l[1::2]`, written as the source's `[1::2]`: every second element
starting at index 1. -/
def sliceOdd {α : Type} (l : List α) : List α := sliceStep2 (l.drop 1)

/-- Python `sep.join(parts)` (the effect of the tab-separated f-strings and
of `'\t'.join(...)` in the writers). -/
def joinSepS (sep : PyStr) : List PyStr → PyStr
  | [] => []
  | [p] => p
  | p :: q :: rest => p ++ sep ++ joinSepS sep (q :: rest)

/-! ## Rendering integers with thousands separators (`f"{num:,}"`) -/

/-- One decimal digit as a character; only ever applied to `n % 10`. -/
def digitChar : Nat → Char
  | 0 => '0' | 1 => '1' | 2 => '2' | 3 => '3' | 4 => '4'
  | 5 => '5' | 6 => '6' | 7 => '7' | 8 => '8' | 9 => '9'
  | _ => '?'

/-- Fuel-driven most-significant-first decimal digits of a natural number. -/
def natDigitsAux : Nat → Nat → List Char
  | 0, _ => []
  | fuel + 1, n => if n = 0 then [] else natDigitsAux fuel (n / 10) ++ [digitChar (n % 10)]

/-- Decimal digits of a natural number, `"0"` for zero. -/
def natDigits (n : Nat) : List Char :=
  if n = 0 then ['0'] else natDigitsAux (n + 1) n

/-- Insert a comma after every third character of a reversed digit string. -/
def groupRevAux : List Char → List Char
  | a :: b :: c :: d :: rest => a :: b :: c :: ',' :: groupRevAux (d :: rest)
  | l => l

/-- Python `f"{num:,}"` on an `int`: decimal digits grouped in threes by
commas, with a leading minus sign for negative numbers. -/
def commaFormatInt (z : Int) : PyStr :=
  (if z < 0 then ['-'] else []) ++ (groupRevAux (natDigits z.natAbs).reverse).reverse

/-! ## The Python `float` model -/

/-- A CPython `float` as far as `format_number` can observe it: an exact
signed decimal value, an infinity, or `nan`. -/
inductive PyF where
  | finite (neg : Bool) (mant : Nat) (exp : Int)
  | inf (neg : Bool)
  | nan
deriving DecidableEq

/-- Magnitude test `bound ≤ mant * 10 ^ exp`, kept in natural arithmetic. -/
def magGE (mant : Nat) (exp : Int) (bound : Nat) : Bool :=
  if 0 ≤ exp then bound ≤ mant * 10 ^ exp.toNat else bound * 10 ^ (-exp).toNat ≤ mant

/-- Overflow a finite value whose magnitude reaches `2 ^ 1024` to an
infinity, as CPython's float arithmetic does. -/
def ovfl : PyF → PyF
  | .finite neg m e => if magGE m e (2 ^ 1024) then .inf neg else .finite neg m e
  | x => x

/-- Value of a decimal digit character. -/
def digitVal (c : Char) : Nat := c.toNat - 48

/-- Accumulate a digit run that may contain single underscores between
digits, returning the value and the number of digits; `none` on a malformed
run (leading, trailing or doubled underscore, or a non-digit). -/
def udigits : PyStr → Nat → Nat → Option (Nat × Nat)
  | [], v, k => some (v, k)
  | '_' :: c :: rest, v, k =>
    if c.isDigit then udigits rest (v * 10 + digitVal c) (k + 1) else none
  | c :: rest, v, k =>
    if c.isDigit then udigits rest (v * 10 + digitVal c) (k + 1) else none

/-- A possibly empty digit run with underscore separators, as accepted inside
CPython's `float(...)` grammar.  Empty gives value 0 with digit count 0. -/
def runVal : PyStr → Option (Nat × Nat)
  | [] => some (0, 0)
  | '_' :: _ => none
  | s => udigits s 0 0

/-- Optional sign at the head of a numeric literal. -/
def parseSign : PyStr → Bool × PyStr
  | '-' :: r => (true, r)
  | '+' :: r => (false, r)
  | s => (false, s)

/-- Case-insensitive comparison with a keyword such as `inf` or `nan`. -/
def lowerEq (s : PyStr) (t : String) : Bool := s.map Char.toLower = t.data

/-- Exponent part after the `e`: optional sign and a nonempty digit run. -/
def expPart (s : PyStr) : Option Int :=
  let p := parseSign s
  match runVal p.2 with
  | some (v, k) => if k = 0 then none else some (if p.1 then -(v : Int) else (v : Int))
  | none => none

/-- Build the finite float from integer run, fraction run and exponent,
requiring at least one mantissa digit, then apply the overflow rule. -/
def mkFinite (neg : Bool) (intRun fracRun : PyStr) (exp : Int) : Option PyF :=
  match runVal intRun, runVal fracRun with
  | some (iv, ik), some (fv, fk) =>
    if ik + fk = 0 then none else some (ovfl (.finite neg (iv * 10 ^ fk + fv) (exp - fk)))
  | _, _ => none

/-- CPython `float(s)` on a string: strip whitespace, optional sign, the
keywords `inf`/`infinity`/`nan` case-insensitively, else a decimal literal
with optional fraction and exponent; `none` models `ValueError`. -/
def pyFloatO (s0 : PyStr) : Option PyF :=
  let s1 := pyStrip s0
  let p := parseSign s1
  if lowerEq p.2 "inf" || lowerEq p.2 "infinity" then some (.inf p.1)
  else if lowerEq p.2 "nan" then some .nan
  else
    let q := p.2.span (fun c => c.isDigit || c = '_')
    match q.2 with
    | [] => mkFinite p.1 q.1 [] 0
    | '.' :: r2 =>
      let f := r2.span (fun c => c.isDigit || c = '_')
      match f.2 with
      | [] => mkFinite p.1 q.1 f.1 0
      | c :: r4 =>
        if c = 'e' || c = 'E' then (expPart r4).bind (mkFinite p.1 q.1 f.1) else none
    | c :: r2 =>
      if c = 'e' || c = 'E' then (expPart r2).bind (mkFinite p.1 q.1 []) else none

/-- `float(s)` with the `ValueError` made explicit. -/
def pyFloat (s : PyStr) : Except PyErr PyF :=
  match pyFloatO s with
  | some v => .ok v
  | none => .error .valueError

/-- Multiplication of a float by a nonnegative integer multiplier, with
overflow to infinity. -/
def pyMulNat : PyF → Nat → PyF
  | .finite neg m e, k => ovfl (.finite neg (m * k) e)
  | .inf neg, k => if k = 0 then .nan else .inf neg
  | .nan, _ => .nan

/-- CPython `int(f)` on a float: truncation toward zero; `ValueError` on
`nan`, `OverflowError` on an infinity. -/
def pyInt : PyF → Except PyErr Int
  | .nan => .error .valueError
  | .inf _ => .error .overflowError
  | .finite neg m e =>
    let mag : Nat := if 0 ≤ e then m * 10 ^ e.toNat else m / 10 ^ (-e).toNat
    .ok (if neg then -(mag : Int) else (mag : Int))

/-! ## `format_number` (eagle_eye_utils.py, lines 231-264) -/

/-- The suffix multiplier dictionary of `format_number`. -/
def suffix_multiplier (c : Char) : Option Nat :=
  if c = 'K' || c = 'k' then some 1000
  else if c = 'M' || c = 'm' then some 1000000
  else none

/-- The argument actually passed to `float(...)` by `format_number`:
`number[:-1]` when the last character is a recognized suffix, else the whole
string (meaningless on the empty string, where indexing raises first). -/
def fnArg (number : PyStr) : PyStr :=
  match number.getLast? with
  | none => []
  | some suffix => if (suffix_multiplier suffix).isSome then number.dropLast else number

/-- The value obtained after the float conversion and the suffix
multiplication inside `format_number`, before `int(...)`. -/
def fnStage (number : PyStr) : Except PyErr PyF :=
  match number.getLast? with
  | none => .error .indexError
  | some suffix =>
    (pyFloat (fnArg number)).map (fun v => pyMulNat v ((suffix_multiplier suffix).getD 1))

/-- Whether the suffix-multiplied value is an infinity, the one situation in
which `int(...)` raises an uncaught `OverflowError` inside `format_number`. -/
def fnOverflows (number : PyStr) : Bool :=
  match fnStage number with
  | .ok (.inf _) => true
  | _ => false

/-- Body of the `try` block of `format_number`. -/
def format_number_core (number : PyStr) : Except PyErr PyStr :=
  match number.getLast? with
  | none => .error .indexError
  | some suffix =>
    match pyFloat (if (suffix_multiplier suffix).isSome then number.dropLast else number) with
    | .error e => .error e
    | .ok v =>
      match pyInt (pyMulNat v ((suffix_multiplier suffix).getD 1)) with
      | .error e => .error e
      | .ok z => .ok (commaFormatInt z)

/-- `format_number` with its `except ValueError: return number` clause; any
other exception propagates to the caller. -/
def format_number (number : PyStr) : Except PyErr PyStr :=
  match format_number_core number with
  | .error .valueError => .ok number
  | r => r

/-! ## The record-assembly loop of `scrape_channel`

A scraped record (one row of `video_data` / `channel_data`) is a list of
field strings: the source builds each record as a tab-joined f-string that is
immediately re-split on tabs. -/

/-- One assembled record: a list of field strings. -/
abbrev Row := List PyStr

/-- The f-string-then-`split('\t')` record constructor shared by all
variants. -/
def mkRow (fields : List PyStr) : Row :=
  splitChar '\t' (joinSepS ['\t'] fields)

/-- Indexing `l[i]`, raising `IndexError` past the end. -/
def idx {α : Type} (l : List α) (i : Nat) : Except PyErr α :=
  match l[i]? with
  | some x => .ok x
  | none => .error .indexError

/-- The `if max_videos is not None and i >= max_videos: break` test at the
top of the loop body. -/
def stopAt (maxVideos : Option Nat) (i : Nat) : Bool :=
  match maxVideos with
  | some m => m ≤ i
  | none => false

/-- The scraping loop: iterate `i` over `range total`, appending each
successfully assembled row to the accumulator.  A raised exception is caught
by the channel-level `except`, which leaves the rows appended so far in
`video_data`; the loop therefore returns the accumulated rows together with
the exception, `none` when the loop finished or hit the cap. -/
def assembleGo (item : Nat → Except PyErr Row) (maxVideos : Option Nat) :
    Nat → Nat → List Row → List Row × Option PyErr
  | 0, _, acc => (acc, none)
  | fuel + 1, i, acc =>
    if stopAt maxVideos i then (acc, none)
    else
      match item i with
      | .ok r => assembleGo item maxVideos fuel (i + 1) (acc ++ [r])
      | .error e => (acc, some e)

/-- The rows produced by `count` successful iterations starting at index
`i`. -/
def okRows (f : Nat → Row) (i : Nat) : Nat → List Row
  | 0 => []
  | count + 1 => f i :: okRows f (i + 1) count

/-- The number of records the loop produces for `total` items under the
optional cap. -/
def capBound (maxVideos : Option Nat) (total : Nat) : Nat :=
  match maxVideos with
  | none => total
  | some k => min total k

namespace Videos

/-- One iteration of the videos loop (eagle_eye_videos.py, lines 260-285):
field reads in source order, the view count normalized by `format_number`,
the video id as the last `=`-segment of the href, the absolute link as the
site origin prefixed to the href, the duration stripped. -/
def item (cname channel_ids : PyStr)
    (titles uploads counts video_ids video_links terms : List PyStr)
    (i : Nat) : Except PyErr Row :=
  match idx titles i with
  | .error e => .error e
  | .ok title =>
  match idx (sliceOdd uploads) i with
  | .error e => .error e
  | .ok published =>
  match idx (sliceStep2 counts) i with
  | .error e => .error e
  | .ok counter =>
  match format_number (firstTok ' ' counter) with
  | .error e => .error e
  | .ok view =>
  match idx video_ids i with
  | .error e => .error e
  | .ok href1 =>
  match idx video_links i with
  | .error e => .error e
  | .ok href2 =>
  match idx (sliceStep2 terms) i with
  | .error e => .error e
  | .ok rawTerm =>
    .ok (mkRow [cname, channel_ids, title, published, view, lastSeg '=' href1,
      pstr "https://www.youtube.com" ++ href2, pyStrip rawTerm])

/-- The row the videos loop assembles at index `i` when every read
succeeds (total counterpart of `item`, used to state the loop's output). -/
def rowAt (cname channel_ids : PyStr)
    (titles uploads counts video_ids video_links terms : List PyStr)
    (i : Nat) : Row :=
  let counter := (sliceStep2 counts).getD i []
  let view := match format_number (firstTok ' ' counter) with
    | .ok v => v
    | .error _ => []
  mkRow [cname, channel_ids, titles.getD i [], (sliceOdd uploads).getD i [], view,
    lastSeg '=' (video_ids.getD i []),
    pstr "https://www.youtube.com" ++ video_links.getD i [],
    pyStrip ((sliceStep2 terms).getD i [])]

/-- The record-assembly part of `scrape_channel` for the videos section
(`eagle_eye_streams.py` has the identical loop): the accumulated
`video_data` and the exception, if any, caught at the channel boundary. -/
def scrape_channel_loop (cname channel_ids : PyStr)
    (titles uploads counts video_ids video_links terms : List PyStr)
    (maxVideos : Option Nat) : List Row × Option PyErr :=
  assembleGo (item cname channel_ids titles uploads counts video_ids video_links terms)
    maxVideos titles.length 0 []

/-- The shortest of the five per-item column sequences the videos loop reads
beyond the titles; the loop raises `IndexError` at this index whenever it is
smaller than the number of titles. -/
def effMin (uploads counts video_ids video_links terms : List PyStr) : Nat :=
  min (min (min (min (sliceOdd uploads).length (sliceStep2 counts).length)
    video_ids.length) video_links.length) (sliceStep2 terms).length

end Videos

namespace Shorts

/-- One iteration of the shorts loop (eagle_eye_shorts.py, lines 219-238):
six fields, no published time and no duration, the video id as the last
`/`-segment of the href. -/
def item (cname channel_ids : PyStr)
    (titles counts video_ids video_links : List PyStr)
    (i : Nat) : Except PyErr Row :=
  match idx titles i with
  | .error e => .error e
  | .ok title =>
  match idx counts i with
  | .error e => .error e
  | .ok counter =>
  match format_number (firstTok ' ' counter) with
  | .error e => .error e
  | .ok view =>
  match idx video_ids i with
  | .error e => .error e
  | .ok href1 =>
  match idx video_links i with
  | .error e => .error e
  | .ok href2 =>
    .ok (mkRow [cname, channel_ids, title, view, lastSeg '/' href1,
      pstr "https://www.youtube.com" ++ href2])

/-- The row the shorts loop assembles at index `i` when every read
succeeds. -/
def rowAt (cname channel_ids : PyStr)
    (titles counts video_ids video_links : List PyStr) (i : Nat) : Row :=
  let view := match format_number (firstTok ' ' (counts.getD i [])) with
    | .ok v => v
    | .error _ => []
  mkRow [cname, channel_ids, titles.getD i [], view,
    lastSeg '/' (video_ids.getD i []),
    pstr "https://www.youtube.com" ++ video_links.getD i []]

/-- The record-assembly part of `scrape_channel` for the shorts section. -/
def scrape_channel_loop (cname channel_ids : PyStr)
    (titles counts video_ids video_links : List PyStr)
    (maxVideos : Option Nat) : List Row × Option PyErr :=
  assembleGo (item cname channel_ids titles counts video_ids video_links)
    maxVideos titles.length 0 []

end Shorts

/-! ## The channel-summary record (eagle_eye_videos.py, lines 331-335) -/

/-- The single quote character, written by code point to keep the source
free of quote-escape literals. -/
def squote : Char := Char.ofNat 39

/-- Escape one character the way `repr` of a `str` does for the characters
that can occur here: backslash, the chosen quote, tab, newline and carriage
return become two-character escapes; everything else is kept (further
non-printable escapes of CPython are not needed by any claim and omitted). -/
def escChar (q c : Char) : PyStr :=
  if c = '\\' then ['\\', '\\']
  else if c = q then ['\\', q]
  else if c = '\t' then ['\\', 't']
  else if c = '\n' then ['\\', 'n']
  else if c = '\r' then ['\\', 'r']
  else [c]

/-- CPython `repr` of a `str`: single-quoted unless the string contains a
single quote and no double quote. -/
def pyReprStr (s : PyStr) : PyStr :=
  let q : Char := if squote ∈ s && ¬ '"' ∈ s then '"' else squote
  [q] ++ (s.map (escChar q)).flatten ++ [q]

/-- CPython `str(...)` of a list of strings, as interpolated by the
f-string `f"...{keyword}..."` of the summary record. -/
def pyReprList (l : List PyStr) : PyStr :=
  ['['] ++ joinSepS (pstr ", ") (l.map pyReprStr) ++ [']']

namespace Summary

/-- The channel-summary record: the tab-joined f-string of the eight
channel-level attributes, re-split on tabs.  The keyword list is rendered by
`str(...)` of the Python list. -/
def record (cname channel_id description : PyStr) (keywords : List PyStr)
    (subscriber joined location global_views : PyStr) : Row :=
  mkRow [cname, channel_id, description, pyReprList keywords, subscriber,
    joined, location, global_views]

end Summary

/-! ## Accumulation across channels (eagle_eye_main.py, lines 132-149)

`scrape_channel` returns `video_data` even when an exception was caught, so
`main` extends `data` with whatever the channel produced before failing. -/

/-- The `data` list of `main` after the channel loop: each channel's
returned rows in request order. -/
def mainData (results : List (List Row × Option PyErr)) : List Row :=
  (results.map Prod.fst).flatten

/-! ## Export paths (eagle_eye_videos.py 311-329, eagle_eye_streams.py,
eagle_eye_shorts.py 244-260) -/

/-- `os.path.flatten` for the relative, slash-free components the source
passes. -/
def joinPath (a b : PyStr) : PyStr := a ++ pstr "/" ++ b

/-- Per-channel videos export path:
`downloads/<cname>/<cname>_videos_<timestamp>.<ext>`. -/
def videosExportPath (cname timestamp ext : PyStr) : PyStr :=
  joinPath (joinPath (pstr "downloads") cname)
    (cname ++ pstr "_videos_" ++ timestamp ++ pstr "." ++ ext)

/-- Per-channel streams export path:
`downloads/<cname>/<cname>_streams_<timestamp>.<ext>`. -/
def streamsExportPath (cname timestamp ext : PyStr) : PyStr :=
  joinPath (joinPath (pstr "downloads") cname)
    (cname ++ pstr "_streams_" ++ timestamp ++ pstr "." ++ ext)

/-- Per-channel shorts export path: the shorts module writes
`f"{cname}_shorts.{ext}"` in the working directory, with no channel folder
and no run timestamp. -/
def shortsExportPath (cname ext : PyStr) : PyStr :=
  cname ++ pstr "_shorts." ++ ext

/-- Per-channel summary CSV filename
(`f"{cname}_summary_{current_datetime}.csv"`, eagle_eye_videos.py line
353). -/
def summaryCsvFileName (cname timestamp : PyStr) : PyStr :=
  cname ++ pstr "_summary_" ++ timestamp ++ pstr ".csv"

/-- Modelled from the spec: the file-naming pattern
`<output_root>/<channel_name>/<channel_name>_<variant>_<run_timestamp>.<ext>`
claimed for every per-channel export.  Stated for comparison with the path
the code builds. -/
def specExportPath (root cname variant timestamp ext : PyStr) : PyStr :=
  root ++ pstr "/" ++ cname ++ pstr "/" ++ cname ++ pstr "_" ++ variant ++
    pstr "_" ++ timestamp ++ pstr "." ++ ext

/-! ## CSV / TXT / JSON serialization -/

/-- Whether `pandas.to_csv` must quote a field: it contains the delimiter, a
quote or a line break. -/
def csvNeedsQuote (f : PyStr) : Bool :=
  f.any (fun c => c = ',' || c = '"' || c = '\n' || c = '\r')

/-- A field that round-trips through the naive comma reader: free of commas,
quotes and line breaks. -/
def csvClean (f : PyStr) : Bool :=
  f.all (fun c => !(c = ',' || c = '"' || c = '\n' || c = '\r'))

/-- A field that survives the shorts module's tab-separated TXT round trip
unchanged: additionally free of tabs. -/
def tsvClean (f : PyStr) : Bool :=
  f.all (fun c => !(c = '\t' || c = ',' || c = '"' || c = '\n' || c = '\r'))

/-- Double every quote inside a quoted field. -/
def csvEscapeQuotes : PyStr → PyStr
  | [] => []
  | c :: rest => (if c = '"' then ['"', '"'] else [c]) ++ csvEscapeQuotes rest

/-- Render one CSV field. -/
def csvField (f : PyStr) : PyStr :=
  if csvNeedsQuote f then ['"'] ++ csvEscapeQuotes f ++ ['"'] else f

/-- Render one CSV line, newline-terminated. -/
def csvLine (r : Row) : PyStr :=
  joinSepS [','] (r.map csvField) ++ ['\n']

/-- `df.to_csv(...)`: header line followed by one line per row. -/
def toCsvText (cols : List PyStr) (rows : List Row) : PyStr :=
  csvLine cols ++ (rows.map csvLine).flatten

/-- Render one tab-separated line, newline-terminated, as the TXT writers
do with `'\t'.flatten(...) + "\n"`. -/
def tsvLine (r : Row) : PyStr :=
  joinSepS ['\t'] r ++ ['\n']

/-- Split a file into its nonblank lines (`pandas.read_csv` skips blank
lines). -/
def fileLines (content : PyStr) : List PyStr :=
  (splitChar '\n' content).filter (fun l => l ≠ [])

/-- A naive comma-separated reader: adequate for content whose fields are
free of commas, quotes and line breaks (the situations the claims cover);
`pandas`' quote handling and type inference are deliberately outside the
model and every theorem using this reader assumes such clean fields. -/
def csvRowsOf (content : PyStr) : List Row :=
  (fileLines content).map (splitChar ',')

/-- `pandas.read_csv(..., sep='\t')` on the shorts TXT file, modelled at
the string level: header from the first nonblank line, one row per further
line, fields read verbatim (no NaN padding, no type inference — the claims
using this only count rows or assume tab-free fields). -/
def readCsvTab (content : PyStr) : List PyStr × List Row :=
  match fileLines content with
  | [] => ([], [])
  | h :: t => (splitChar '\t' h, t.map (splitChar '\t'))

/-- The videos CSV/JSON column schema. -/
def videosHeader : List PyStr :=
  [pstr "Channel", pstr "Identifier", pstr "Title", pstr "Published",
   pstr "Video_views", pstr "Video_id", pstr "Link", pstr "Duration"]

/-- The shorts CSV/JSON column schema. -/
def shortsHeader : List PyStr :=
  [pstr "Channel", pstr "Identifier", pstr "Title", pstr "Video_views",
   pstr "Video_id", pstr "Link"]

/-- `pd.DataFrame(video_data, columns=...)`: fails unless every row has
exactly one entry per declared column. -/
def dataFrame (cols : List PyStr) (rows : List Row) :
    Except PyErr (List PyStr × List Row) :=
  if rows.all (fun r => r.length = cols.length) then .ok (cols, rows)
  else .error .valueError

/-- The JSON `records` orient: one object per row, keys in column order
(`df.to_json(orient='records')` re-serialized by `json.dumps`). -/
def jsonRecords (cols : List PyStr) (rows : List Row) : List (List (PyStr × PyStr)) :=
  rows.map (fun r => cols.zip r)

/-- The videos CSV file content for one run. -/
def videosCsvText (rows : List Row) : PyStr := toCsvText videosHeader rows

/-- The videos JSON objects for one run. -/
def videosJsonObjects (rows : List Row) : List (List (PyStr × PyStr)) :=
  jsonRecords videosHeader rows

/-- The shorts TXT file: tab-joined header then tab-joined rows
(eagle_eye_shorts.py, lines 244-247). -/
def shortsTxtText (rows : List Row) : PyStr :=
  tsvLine shortsHeader ++ (rows.map tsvLine).flatten

/-- The DataFrame the shorts module re-reads from its own TXT file before
writing CSV/XLSX/JSON (lines 250-255). -/
def shortsDf (rows : List Row) : List PyStr × List Row :=
  readCsvTab (shortsTxtText rows)

/-- The shorts CSV file content, produced from the re-read DataFrame. -/
def shortsCsvText (rows : List Row) : PyStr :=
  toCsvText (shortsDf rows).1 (shortsDf rows).2

/-- The shorts JSON objects, produced from the re-read DataFrame. -/
def shortsJsonObjects (rows : List Row) : List (List (PyStr × PyStr)) :=
  jsonRecords (shortsDf rows).1 (shortsDf rows).2

/-! ## `merge_summary_files` (eagle_eye_utils.py, lines 268-301) -/

/-- Python `s.endswith(suffix)`. -/
def pyEndsWith (s suffix : PyStr) : Bool :=
  decide (s.drop (s.length - suffix.length) = suffix)

/-- The fixed selection suffix of `merge_summary_files`. -/
def summarySuffix : PyStr := pstr "_summary.csv"

/-- `pd.read_csv` of a summary file, at the level the merge needs: header
and data rows (fields assumed free of quotes and commas, as recorded at
`csvRowsOf`). -/
def readCsvComma (content : PyStr) : List PyStr × List Row :=
  match fileLines content with
  | [] => ([], [])
  | h :: t => (splitChar ',' h, t.map (splitChar ','))

/-- The four aggregate files `merge_summary_files` writes, each carrying
the merged table (the four serializations share one DataFrame; the model
records the table each file serializes). -/
def aggWrites (header : List PyStr) (rows : List Row) :
    List (PyStr × (List PyStr × List Row)) :=
  [(pstr "summary_all_channels.csv", (header, rows)),
   (pstr "summary_all_channels.txt", (header, rows)),
   (pstr "summary_all_channels.xlsx", (header, rows)),
   (pstr "summary_all_channels.json", (header, rows))]

/-- `merge_summary_files` over a directory listing of `(name, content)`
pairs: select the files ending in `_summary.csv`, in listing
(`os.listdir`) order; print and return without writing when none match;
otherwise concatenate the tables in encounter order (`pd.concat` with
`ignore_index=True`; the claims assume the files share one header, which
the model takes from the first selected file) and write the four
aggregates. -/
def merge_summary_files (listing : List (PyStr × PyStr)) :
    Option (List (PyStr × (List PyStr × List Row))) :=
  let summaryFiles := listing.filter (fun f => pyEndsWith f.1 summarySuffix)
  if summaryFiles.isEmpty then none
  else
    let tables := summaryFiles.map (fun f => readCsvComma f.2)
    some (aggWrites ((tables.headD ([], [])).1) ((tables.map Prod.snd).flatten))

/-- A filesystem as an association list from path to file data. -/
def upsert {α : Type} (fs : List (PyStr × α)) (w : PyStr × α) : List (PyStr × α) :=
  match fs with
  | [] => [w]
  | f :: rest => if f.1 = w.1 then w :: rest else f :: upsert rest w

/-- Apply a batch of writes (each in `"w"` mode: replace, never append). -/
def applyWrites {α : Type} (fs : List (PyStr × α)) (ws : List (PyStr × α)) :
    List (PyStr × α) :=
  ws.foldl upsert fs

/-- Look a path up in the filesystem model. -/
def lookupFs {α : Type} : List (PyStr × α) → PyStr → Option α
  | [], _ => none
  | f :: rest, p => if f.1 = p then some f.2 else lookupFs rest p

/-! # Supporting lemmas -/

theorem pyFloat_error {s : PyStr} {e : PyErr} (h : pyFloat s = .error e) :
    e = .valueError := by
  unfold pyFloat at h
  cases hO : pyFloatO s <;> rw [hO] at h <;> simp_all

theorem splitChar_ne_nil (sep : Char) (s : PyStr) : splitChar sep s ≠ [] := by
  cases s with
  | nil => simp [splitChar]
  | cons c rest =>
    cases h : splitChar sep rest with
    | nil => simp [splitChar, h]
    | cons g gs =>
      simp only [splitChar, h]
      split <;> simp

theorem splitChar_cons_sep {sep : Char} (rest : PyStr) :
    splitChar sep (sep :: rest) = [] :: splitChar sep rest := by
  cases hs : splitChar sep rest with
  | nil => exact absurd hs (splitChar_ne_nil _ _)
  | cons g gs => simp [splitChar, hs]

theorem splitChar_cons_ne {sep a : Char} (ha : ¬ a = sep) (rest : PyStr) :
    ∃ g gs, splitChar sep rest = g :: gs ∧
      splitChar sep (a :: rest) = (a :: g) :: gs := by
  cases hs : splitChar sep rest with
  | nil => exact absurd hs (splitChar_ne_nil _ _)
  | cons g gs => exact ⟨g, gs, rfl, by simp [splitChar, hs, ha]⟩

theorem splitChar_of_not_mem {sep : Char} {s : PyStr} (h : sep ∉ s) :
    splitChar sep s = [s] := by
  induction s with
  | nil => rfl
  | cons c rest ih =>
    have hc : ¬ c = sep := by rintro rfl; exact h (List.mem_cons_self _ _)
    obtain ⟨g, gs, hs, heq⟩ := splitChar_cons_ne hc rest
    rw [ih (fun hm => h (List.mem_cons_of_mem _ hm))] at hs
    injection hs with h1 h2
    subst h1
    subst h2
    exact heq

theorem splitChar_append {sep : Char} {x y : PyStr} (h : sep ∉ x) :
    splitChar sep (x ++ sep :: y) = x :: splitChar sep y := by
  induction x with
  | nil => exact splitChar_cons_sep y
  | cons c rest ih =>
    have hc : ¬ c = sep := by rintro rfl; exact h (List.mem_cons_self _ _)
    have hr := ih (fun hm => h (List.mem_cons_of_mem _ hm))
    obtain ⟨g, gs, hs, heq⟩ := splitChar_cons_ne hc (rest ++ sep :: y)
    rw [hr] at hs
    injection hs with h1 h2
    subst h1
    subst h2
    exact heq

theorem splitChar_joinSepS {sep : Char} :
    ∀ {parts : List PyStr}, parts ≠ [] → (∀ p ∈ parts, sep ∉ p) →
      splitChar sep (joinSepS [sep] parts) = parts
  | [], h, _ => absurd rfl h
  | [p], _, hall => by
    rw [joinSepS]
    exact splitChar_of_not_mem (hall p (List.mem_cons_self _ _))
  | p :: q :: rest, _, hall => by
    rw [joinSepS]
    have hassoc : p ++ [sep] ++ joinSepS [sep] (q :: rest) =
        p ++ sep :: joinSepS [sep] (q :: rest) := by simp
    rw [hassoc, splitChar_append (hall p (List.mem_cons_self _ _)),
      splitChar_joinSepS (by simp) (fun r hr => hall r (List.mem_cons_of_mem _ hr))]

theorem mem_of_mem_splitChar {sep c : Char} :
    ∀ {s p : PyStr}, p ∈ splitChar sep s → c ∈ p → c ∈ s
  | [], p, hp, hc => by
    simp [splitChar] at hp
    subst hp
    simp at hc
  | a :: rest, p, hp, hc => by
    by_cases ha : a = sep
    · subst ha
      rw [splitChar_cons_sep] at hp
      rcases List.mem_cons.mp hp with rfl | hp
      · simp at hc
      · exact List.mem_cons_of_mem _ (mem_of_mem_splitChar hp hc)
    · obtain ⟨g, gs, hs, heq⟩ := splitChar_cons_ne ha rest
      rw [heq] at hp
      rcases List.mem_cons.mp hp with rfl | hp
      · rcases List.mem_cons.mp hc with rfl | hc
        · exact List.mem_cons_self _ _
        · exact List.mem_cons_of_mem _
            (mem_of_mem_splitChar (p := g) (by rw [hs]; exact List.mem_cons_self g gs) hc)
      · exact List.mem_cons_of_mem _
          (mem_of_mem_splitChar (p := p) (by rw [hs]; exact List.mem_cons_of_mem g hp) hc)

theorem not_mem_splitChar_piece {sep c : Char} {s p : PyStr}
    (hp : p ∈ splitChar sep s) (hs : c ∉ s) : c ∉ p :=
  fun hc => hs (mem_of_mem_splitChar hp hc)

theorem firstTok_not_mem {sep c : Char} {s : PyStr} (hs : c ∉ s) :
    c ∉ firstTok sep s := by
  unfold firstTok
  cases h : splitChar sep s with
  | nil => simp
  | cons g gs =>
    simp only [List.headD_cons]
    exact not_mem_splitChar_piece (h ▸ List.mem_cons_self g gs) hs

theorem lastSeg_not_mem {sep c : Char} {s : PyStr} (hs : c ∉ s) :
    c ∉ lastSeg sep s := by
  unfold lastSeg
  cases h : splitChar sep s with
  | nil => simp
  | cons g gs =>
    have hmem : (g :: gs).getLastD [] ∈ g :: gs := by
      rw [List.getLastD_eq_getLast?]
      cases hgl : (g :: gs).getLast? with
      | none => simp at hgl
      | some a =>
        rw [Option.getD_some]
        exact List.mem_of_mem_getLast? (by rw [hgl]; rfl)
    exact not_mem_splitChar_piece (by rw [h]; exact hmem) hs

theorem mem_of_mem_pyStrip {c : Char} {s : PyStr} (h : c ∈ pyStrip s) : c ∈ s := by
  unfold pyStrip at h
  rw [List.mem_reverse] at h
  have h1 := (List.dropWhile_sublist isPyWs).subset h
  rw [List.mem_reverse] at h1
  exact (List.dropWhile_sublist isPyWs).subset h1

theorem mem_of_mem_sliceStep2 {α : Type} :
    ∀ {l : List α} {x : α}, x ∈ sliceStep2 l → x ∈ l
  | [], x, h => by simp [sliceStep2] at h
  | [a], x, h => by simpa [sliceStep2] using h
  | a :: b :: rest, x, h => by
    rw [sliceStep2] at h
    rcases List.mem_cons.mp h with rfl | h
    · exact List.mem_cons_self _ _
    · exact List.mem_cons_of_mem _ (List.mem_cons_of_mem _ (mem_of_mem_sliceStep2 h))

theorem mem_of_mem_sliceOdd {α : Type} {l : List α} {x : α}
    (h : x ∈ sliceOdd l) : x ∈ l :=
  (List.drop_sublist 1 l).subset (mem_of_mem_sliceStep2 h)

theorem digitChar_ne_tab (k : Nat) : digitChar k ≠ '\t' := by
  unfold digitChar
  split <;> decide

theorem mem_natDigitsAux {c : Char} :
    ∀ {fuel n : Nat}, c ∈ natDigitsAux fuel n → ∃ k, c = digitChar k
  | 0, n, h => by simp [natDigitsAux] at h
  | fuel + 1, n, h => by
    rw [natDigitsAux] at h
    split at h
    · simp at h
    · rcases List.mem_append.mp h with h | h
      · exact mem_natDigitsAux h
      · exact ⟨n % 10, by simpa using h⟩

theorem natDigits_ne_tab {c : Char} {n : Nat} (h : c ∈ natDigits n) : c ≠ '\t' := by
  unfold natDigits at h
  split at h
  · simp at h
    subst h
    decide
  · obtain ⟨k, rfl⟩ := mem_natDigitsAux h
    exact digitChar_ne_tab k

theorem mem_groupRevAux {c : Char} :
    ∀ (l : List Char), c ∈ groupRevAux l → c ∈ l ∨ c = ','
  | [], h => .inl h
  | [a], h => .inl h
  | [a, b], h => .inl h
  | [a, b, d], h => .inl h
  | a :: b :: d :: e :: rest, h => by
    rw [groupRevAux] at h
    simp only [List.mem_cons] at h ⊢
    rcases h with rfl | rfl | rfl | rfl | h
    · tauto
    · tauto
    · tauto
    · tauto
    · rcases mem_groupRevAux (e :: rest) h with h | h
      · rcases List.mem_cons.mp h with rfl | h <;> tauto
      · tauto

theorem commaFormatInt_not_mem_tab (z : Int) : '\t' ∉ commaFormatInt z := by
  unfold commaFormatInt
  intro h
  rcases List.mem_append.mp h with h | h
  · split at h
    · simp at h
    · simp at h
  · rw [List.mem_reverse] at h
    rcases mem_groupRevAux _ h with h | h
    · rw [List.mem_reverse] at h
      exact natDigits_ne_tab h rfl
    · exact absurd h (by decide)

theorem format_number_core_ok {s t : PyStr} (h : format_number_core s = .ok t) :
    ∃ z, t = commaFormatInt z := by
  unfold format_number_core at h
  split at h
  · exact absurd h (by simp)
  · split at h
    · exact absurd h (by simp)
    · split at h
      · exact absurd h (by simp)
      · simp only [Except.ok.injEq] at h
        exact ⟨_, h.symm⟩

theorem format_number_ok_cases {s t : PyStr} (h : format_number s = .ok t) :
    t = s ∨ ∃ z, t = commaFormatInt z := by
  unfold format_number at h
  cases hc : format_number_core s with
  | ok u =>
    rw [hc] at h
    simp only [Except.ok.injEq] at h
    subst h
    exact .inr (format_number_core_ok hc)
  | error e =>
    rw [hc] at h
    cases e with
    | valueError =>
      simp only [Except.ok.injEq] at h
      exact .inl h.symm
    | indexError => simp at h
    | overflowError => simp at h

theorem format_number_not_mem_tab {s t : PyStr} (h : format_number s = .ok t)
    (hs : '\t' ∉ s) : '\t' ∉ t := by
  rcases format_number_ok_cases h with rfl | ⟨z, rfl⟩
  · exact hs
  · exact commaFormatInt_not_mem_tab z

/-! # Claim C2: totality of the number normalizer -/

/-- Claim C2 counterexample: `format_number` is not total — on the empty
string, `number[-1]` raises an uncaught `IndexError`, so `format_number`
does not return a string for every input as the claim states. -/
theorem c2_empty_input_raises :
    format_number (pstr "") = .error .indexError := by decide

/-- Claim C2 (amended): for every nonempty input whose suffix-multiplied
float value is not an infinity, `format_number` returns a string, and when
the float conversion fails it returns the input unchanged.  (On the empty
string it raises `IndexError`; on inputs reaching an infinite float, such
as `"inf"`, the `int(...)` call raises an uncaught `OverflowError`.) -/
theorem c2_total_on_nonempty (number : PyStr) (h1 : number ≠ [])
    (h2 : fnOverflows number = false) :
    (∃ t, format_number number = .ok t) ∧
      (pyFloat (fnArg number) = .error .valueError →
        format_number number = .ok number) := by
  cases hl : number.getLast? with
  | none => exact absurd (List.getLast?_eq_none_iff.mp hl) h1
  | some suffix =>
    have harg : (if (suffix_multiplier suffix).isSome then number.dropLast else number) =
        fnArg number := by
      rw [fnArg, hl]
    cases hf : pyFloat (fnArg number) with
    | error e =>
      have he : e = .valueError := pyFloat_error hf
      subst he
      have hcore : format_number_core number = .error .valueError := by
        simp only [format_number_core, hl, harg, hf]
      have hres : format_number number = .ok number := by
        simp only [format_number, hcore]
      exact ⟨⟨number, hres⟩, fun _ => hres⟩
    | ok v =>
      cases hm : pyMulNat v ((suffix_multiplier suffix).getD 1) with
      | finite neg m e =>
        have hcore : ∃ z, format_number_core number = .ok (commaFormatInt z) := by
          simp only [format_number_core, hl, harg, hf, hm, pyInt]
          exact ⟨_, rfl⟩
        obtain ⟨z, hcore⟩ := hcore
        have hres : format_number number = .ok (commaFormatInt z) := by
          simp only [format_number, hcore]
        refine ⟨⟨_, hres⟩, fun hcontra => ?_⟩
        exact absurd hcontra (by simp)
      | inf b =>
        exfalso
        have hov : fnOverflows number = true := by
          simp only [fnOverflows, fnStage, hl, hf, Except.map, hm]
        rw [hov] at h2
        simp at h2
      | nan =>
        have hcore : format_number_core number = .error .valueError := by
          simp only [format_number_core, hl, harg, hf, hm, pyInt]
        have hres : format_number number = .ok number := by
          simp only [format_number, hcore]
        exact ⟨⟨number, hres⟩, fun _ => hres⟩

/-- Witness for `c2_total_on_nonempty` at the concrete input `"abc"`. -/
theorem c2_total_on_nonempty_witness :
    (pstr "abc" ≠ []) ∧ fnOverflows (pstr "abc") = false ∧
      ((∃ t, format_number (pstr "abc") = .ok t) ∧
        (pyFloat (fnArg (pstr "abc")) = .error .valueError →
          format_number (pstr "abc") = .ok (pstr "abc"))) :=
  ⟨by decide, by decide, c2_total_on_nonempty (pstr "abc") (by decide) (by decide)⟩

/-! # Claim C4: the normalizer's required values -/

set_option maxRecDepth 8000 in
/-- Claim C4: `format_number` maps `"1.2K"` to `"1,200"`, `"2M"` to
`"2,000,000"`, `"350"` to `"350"`, and passes `"N/A"` through unchanged. -/
theorem c4_format_number_examples :
    format_number (pstr "1.2K") = .ok (pstr "1,200") ∧
    format_number (pstr "2M") = .ok (pstr "2,000,000") ∧
    format_number (pstr "350") = .ok (pstr "350") ∧
    format_number (pstr "N/A") = .ok (pstr "N/A") := by
  refine ⟨?_, ?_, ?_, ?_⟩ <;> decide

/-! # Claim C7: export file naming -/

/-- Claim C7 counterexample: the shorts export does not follow the claimed
`<output_root>/<channel_name>/<channel_name>_<variant>_<run_timestamp>.<ext>`
pattern — it writes `<cname>_shorts.<ext>` in the working directory with no
channel folder and no run timestamp, so two runs over the same channel
write the same shorts file. -/
theorem c7_shorts_path_counterexample :
    shortsExportPath (pstr "@chan") (pstr "csv") = pstr "@chan_shorts.csv" ∧
    shortsExportPath (pstr "@chan") (pstr "csv") ≠
      specExportPath (pstr "downloads") (pstr "@chan") (pstr "shorts")
        (pstr "20231206_153045") (pstr "csv") := by
  constructor <;> decide

/-- Claim C7 (amended): the videos and streams per-channel exports follow
the claimed pattern with output root `downloads`, and for those two
variants distinct equal-length run timestamps give distinct paths, so runs
do not overwrite each other; the shorts export does not follow the pattern
(see the counterexample). -/
theorem c7_videos_streams_paths (cname timestamp ext ts1 ts2 : PyStr)
    (hlen : ts1.length = ts2.length) (hne : ts1 ≠ ts2) :
    videosExportPath cname timestamp ext =
      specExportPath (pstr "downloads") cname (pstr "videos") timestamp ext ∧
    streamsExportPath cname timestamp ext =
      specExportPath (pstr "downloads") cname (pstr "streams") timestamp ext ∧
    videosExportPath cname ts1 ext ≠ videosExportPath cname ts2 ext ∧
    streamsExportPath cname ts1 ext ≠ streamsExportPath cname ts2 ext := by
  have hsegv : pstr "_videos_" = pstr "_" ++ (pstr "videos" ++ pstr "_") := by decide
  have hsegs : pstr "_streams_" = pstr "_" ++ (pstr "streams" ++ pstr "_") := by decide
  refine ⟨?_, ?_, ?_, ?_⟩
  · simp only [videosExportPath, joinPath, specExportPath, List.append_assoc, hsegv]
  · simp only [streamsExportPath, joinPath, specExportPath, List.append_assoc, hsegs]
  · intro h
    simp only [videosExportPath, joinPath, List.append_assoc] at h
    exact hne (List.append_inj_left
      (List.append_cancel_left (List.append_cancel_left (List.append_cancel_left
        (List.append_cancel_left (List.append_cancel_left (List.append_cancel_left h))))))
      hlen)
  · intro h
    simp only [streamsExportPath, joinPath, List.append_assoc] at h
    exact hne (List.append_inj_left
      (List.append_cancel_left (List.append_cancel_left (List.append_cancel_left
        (List.append_cancel_left (List.append_cancel_left (List.append_cancel_left h))))))
      hlen)

/-! # Loop lemmas -/

theorem okRows_length (f : Nat → Row) : ∀ (i count : Nat), (okRows f i count).length = count
  | _, 0 => rfl
  | i, count + 1 => by rw [okRows, List.length_cons, okRows_length]

theorem assembleGo_ok_none (item : Nat → Except PyErr Row) {f : Nat → Row} :
    ∀ (fuel i : Nat) (acc : List Row),
      (∀ j, j < fuel → item (i + j) = .ok (f (i + j))) →
      assembleGo item none fuel i acc = (acc ++ okRows f i fuel, none)
  | 0, _, acc, _ => by simp [assembleGo, okRows]
  | fuel + 1, i, acc, h => by
    have h0 := h 0 (Nat.succ_pos _)
    rw [Nat.add_zero] at h0
    have hrec := assembleGo_ok_none item fuel (i + 1) (acc ++ [f i]) (fun j hj => by
      have hh := h (j + 1) (Nat.succ_lt_succ hj)
      rwa [Nat.add_comm j 1, ← Nat.add_assoc] at hh)
    simp only [assembleGo, stopAt, h0, hrec, okRows]
    simp

theorem assembleGo_err (item : Nat → Except PyErr Row) {f : Nat → Row} {e : PyErr} :
    ∀ (K fuel i : Nat) (acc : List Row),
      K < fuel →
      (∀ j, j < K → item (i + j) = .ok (f (i + j))) →
      item (i + K) = .error e →
      assembleGo item none fuel i acc = (acc ++ okRows f i K, some e)
  | 0, fuel, i, acc, hK, _, herr => by
    cases fuel with
    | zero => omega
    | succ fuel2 =>
      rw [Nat.add_zero] at herr
      simp only [assembleGo, stopAt, herr, okRows]
      simp
  | K + 1, fuel, i, acc, hK, hok, herr => by
    cases fuel with
    | zero => omega
    | succ fuel2 =>
      have h0 := hok 0 (Nat.succ_pos _)
      rw [Nat.add_zero] at h0
      have hrec := assembleGo_err item K fuel2 (i + 1) (acc ++ [f i])
        (by omega)
        (fun j hj => by
          have hh := hok (j + 1) (Nat.succ_lt_succ hj)
          rwa [Nat.add_comm j 1, ← Nat.add_assoc] at hh)
        (by rwa [Nat.add_comm K 1, ← Nat.add_assoc] at herr)
      simp only [assembleGo, stopAt, h0, hrec, okRows]
      simp

theorem assembleGo_ok_some (item : Nat → Except PyErr Row) {f : Nat → Row} {m : Nat} :
    ∀ (fuel i : Nat) (acc : List Row),
      (∀ j, j < min fuel (m - i) → item (i + j) = .ok (f (i + j))) →
      assembleGo item (some m) fuel i acc =
        (acc ++ okRows f i (min fuel (m - i)), none)
  | 0, _, acc, _ => by simp [assembleGo, okRows]
  | fuel + 1, i, acc, h => by
    by_cases hstop : m ≤ i
    · have hmin : min (fuel + 1) (m - i) = 0 := by omega
      simp only [assembleGo, stopAt, hmin, okRows]
      simp [hstop]
    · have hmin : min (fuel + 1) (m - i) = min fuel (m - (i + 1)) + 1 := by omega
      have h0 := h 0 (by omega)
      rw [Nat.add_zero] at h0
      have hrec := assembleGo_ok_some item (m := m) fuel (i + 1) (acc ++ [f i]) (fun j hj => by
        have hh := h (j + 1) (by omega)
        rwa [Nat.add_comm j 1, ← Nat.add_assoc] at hh)
      simp only [assembleGo, stopAt, h0, hrec, hmin, okRows]
      simp [hstop]

theorem mem_assembleGo {item : Nat → Except PyErr Row} {maxV : Option Nat} :
    ∀ {fuel i : Nat} {acc : List Row} {r : Row},
      r ∈ (assembleGo item maxV fuel i acc).1 →
      r ∈ acc ∨ ∃ j, item j = .ok r
  | 0, _, _, _, h => .inl h
  | fuel + 1, i, acc, r, h => by
    simp only [assembleGo] at h
    split at h
    · exact .inl h
    · cases hi : item i with
      | ok row =>
        simp only [hi] at h
        rcases mem_assembleGo h with hmem | hex
        · rcases List.mem_append.mp hmem with hmem | hmem
          · exact .inl hmem
          · simp only [List.mem_singleton] at hmem
            exact .inr ⟨i, hmem ▸ hi⟩
        · exact .inr hex
      | error e =>
        simp only [hi] at h
        exact .inl h

theorem mem_of_idx_ok {α : Type} {l : List α} {i : Nat} {x : α}
    (h : idx l i = .ok x) : x ∈ l := by
  unfold idx at h
  cases hg : l[i]? with
  | none => simp [hg] at h
  | some a =>
    simp only [hg, Except.ok.injEq] at h
    exact h ▸ List.getElem?_mem hg

theorem idx_eq_ok {l : List PyStr} {i : Nat} (h : i < l.length) :
    idx l i = .ok (l.getD i []) := by
  simp only [idx, List.getD_eq_getElem?_getD, List.getElem?_eq_getElem h,
    Option.getD_some]

theorem idx_err {α : Type} {l : List α} {i : Nat} (h : l.length ≤ i) :
    idx l i = .error .indexError := by
  simp only [idx, List.getElem?_eq_none h]

theorem getD_mem {l : List PyStr} {i : Nat} (h : i < l.length) :
    l.getD i [] ∈ l := by
  rw [List.getD_eq_getElem?_getD, List.getElem?_eq_getElem h, Option.getD_some]
  exact List.getElem_mem _

theorem exists_ok_of_isOk {eps alpha : Type} {x : Except eps alpha}
    (h : x.isOk = true) : ∃ v, x = .ok v := by
  cases x with
  | ok v => exact ⟨v, rfl⟩
  | error e => simp [Except.isOk, Except.toBool] at h

/-! # Per-item lemmas for the videos and shorts loops -/

theorem videos_item_ok {cname channel_ids : PyStr}
    {titles uploads counts video_ids video_links terms : List PyStr} {i : Nat}
    (ht : i < titles.length) (hp : i < (sliceOdd uploads).length)
    (hc : i < (sliceStep2 counts).length) (hv : i < video_ids.length)
    (hl : i < video_links.length) (hm : i < (sliceStep2 terms).length)
    (hfmt : ∃ v, format_number (firstTok ' ' ((sliceStep2 counts).getD i [])) = .ok v) :
    Videos.item cname channel_ids titles uploads counts video_ids video_links terms i =
      .ok (Videos.rowAt cname channel_ids titles uploads counts video_ids
        video_links terms i) := by
  obtain ⟨v, hfv⟩ := hfmt
  simp only [Videos.item, Videos.rowAt, idx_eq_ok ht, idx_eq_ok hp, idx_eq_ok hc,
    idx_eq_ok hv, idx_eq_ok hl, idx_eq_ok hm, hfv]

theorem videos_item_err {cname channel_ids : PyStr}
    {titles uploads counts video_ids video_links terms : List PyStr} {K : Nat}
    (ht : K < titles.length)
    (hK : Videos.effMin uploads counts video_ids video_links terms ≤ K)
    (hfmt : ∀ c ∈ sliceStep2 counts, ∃ v, format_number (firstTok ' ' c) = .ok v) :
    Videos.item cname channel_ids titles uploads counts video_ids video_links terms K =
      .error .indexError := by
  by_cases h1 : K < (sliceOdd uploads).length
  case neg =>
    simp only [Videos.item, idx_eq_ok ht, idx_err (Nat.le_of_not_lt h1)]
  case pos =>
  by_cases h2 : K < (sliceStep2 counts).length
  case neg =>
    simp only [Videos.item, idx_eq_ok ht, idx_eq_ok h1, idx_err (Nat.le_of_not_lt h2)]
  case pos =>
  obtain ⟨v, hfv⟩ := hfmt _ (getD_mem h2)
  by_cases h3 : K < video_ids.length
  case neg =>
    simp only [Videos.item, idx_eq_ok ht, idx_eq_ok h1, idx_eq_ok h2, hfv,
      idx_err (Nat.le_of_not_lt h3)]
  case pos =>
  by_cases h4 : K < video_links.length
  case neg =>
    simp only [Videos.item, idx_eq_ok ht, idx_eq_ok h1, idx_eq_ok h2, hfv,
      idx_eq_ok h3, idx_err (Nat.le_of_not_lt h4)]
  case pos =>
  by_cases h5 : K < (sliceStep2 terms).length
  case neg =>
    simp only [Videos.item, idx_eq_ok ht, idx_eq_ok h1, idx_eq_ok h2, hfv,
      idx_eq_ok h3, idx_eq_ok h4, idx_err (Nat.le_of_not_lt h5)]
  case pos =>
    exfalso
    have hcon : K < Videos.effMin uploads counts video_ids video_links terms := by
      unfold Videos.effMin
      omega
    omega

theorem shorts_item_ok {cname channel_ids : PyStr}
    {titles counts video_ids video_links : List PyStr} {i : Nat}
    (ht : i < titles.length) (hc : i < counts.length) (hv : i < video_ids.length)
    (hl : i < video_links.length)
    (hfmt : ∃ v, format_number (firstTok ' ' (counts.getD i [])) = .ok v) :
    Shorts.item cname channel_ids titles counts video_ids video_links i =
      .ok (Shorts.rowAt cname channel_ids titles counts video_ids video_links i) := by
  obtain ⟨v, hfv⟩ := hfmt
  simp only [Shorts.item, Shorts.rowAt, idx_eq_ok ht, idx_eq_ok hc, idx_eq_ok hv,
    idx_eq_ok hl, hfv]

theorem videos_item_shape {cname channel_ids : PyStr}
    {titles uploads counts video_ids video_links terms : List PyStr} {i : Nat} {r : Row}
    (h : Videos.item cname channel_ids titles uploads counts video_ids video_links
      terms i = .ok r) :
    ∃ title published counter view href1 href2 rawTerm,
      title ∈ titles ∧ published ∈ sliceOdd uploads ∧ counter ∈ sliceStep2 counts ∧
      format_number (firstTok ' ' counter) = .ok view ∧ href1 ∈ video_ids ∧
      href2 ∈ video_links ∧ rawTerm ∈ sliceStep2 terms ∧
      r = mkRow [cname, channel_ids, title, published, view, lastSeg '=' href1,
        pstr "https://www.youtube.com" ++ href2, pyStrip rawTerm] := by
  unfold Videos.item at h
  cases h1 : idx titles i with
  | error e => simp [h1] at h
  | ok title =>
  simp only [h1] at h
  cases h2 : idx (sliceOdd uploads) i with
  | error e => simp [h2] at h
  | ok published =>
  simp only [h2] at h
  cases h3 : idx (sliceStep2 counts) i with
  | error e => simp [h3] at h
  | ok counter =>
  simp only [h3] at h
  cases h4 : format_number (firstTok ' ' counter) with
  | error e => simp [h4] at h
  | ok view =>
  simp only [h4] at h
  cases h5 : idx video_ids i with
  | error e => simp [h5] at h
  | ok href1 =>
  simp only [h5] at h
  cases h6 : idx video_links i with
  | error e => simp [h6] at h
  | ok href2 =>
  simp only [h6] at h
  cases h7 : idx (sliceStep2 terms) i with
  | error e => simp [h7] at h
  | ok rawTerm =>
  simp only [h7, Except.ok.injEq] at h
  exact ⟨title, published, counter, view, href1, href2, rawTerm,
    mem_of_idx_ok h1, mem_of_idx_ok h2, mem_of_idx_ok h3, h4,
    mem_of_idx_ok h5, mem_of_idx_ok h6, mem_of_idx_ok h7, h.symm⟩

theorem shorts_item_shape {cname channel_ids : PyStr}
    {titles counts video_ids video_links : List PyStr} {i : Nat} {r : Row}
    (h : Shorts.item cname channel_ids titles counts video_ids video_links i = .ok r) :
    ∃ title counter view href1 href2,
      title ∈ titles ∧ counter ∈ counts ∧
      format_number (firstTok ' ' counter) = .ok view ∧ href1 ∈ video_ids ∧
      href2 ∈ video_links ∧
      r = mkRow [cname, channel_ids, title, view, lastSeg '/' href1,
        pstr "https://www.youtube.com" ++ href2] := by
  unfold Shorts.item at h
  cases h1 : idx titles i with
  | error e => simp [h1] at h
  | ok title =>
  simp only [h1] at h
  cases h2 : idx counts i with
  | error e => simp [h2] at h
  | ok counter =>
  simp only [h2] at h
  cases h3 : format_number (firstTok ' ' counter) with
  | error e => simp [h3] at h
  | ok view =>
  simp only [h3] at h
  cases h4 : idx video_ids i with
  | error e => simp [h4] at h
  | ok href1 =>
  simp only [h4] at h
  cases h5 : idx video_links i with
  | error e => simp [h5] at h
  | ok href2 =>
  simp only [h5, Except.ok.injEq] at h
  exact ⟨title, counter, view, href1, href2, mem_of_idx_ok h1, mem_of_idx_ok h2,
    h3, mem_of_idx_ok h4, mem_of_idx_ok h5, h.symm⟩

/-! # Row-shape lemmas -/

theorem mkRow_eq {fields : List PyStr} (hne : fields ≠ [])
    (h : ∀ f ∈ fields, '\t' ∉ f) : mkRow fields = fields := by
  unfold mkRow
  exact splitChar_joinSepS hne h

theorem mem_joinSepS {c : Char} {sep : PyStr} :
    ∀ {parts : List PyStr}, c ∈ joinSepS sep parts → c ∈ sep ∨ ∃ p ∈ parts, c ∈ p
  | [], h => by simp [joinSepS] at h
  | [p], h => .inr ⟨p, List.mem_cons_self _ _, h⟩
  | p :: q :: rest, h => by
    rw [joinSepS] at h
    rcases List.mem_append.mp h with h | h
    · rcases List.mem_append.mp h with h | h
      · exact .inr ⟨p, List.mem_cons_self _ _, h⟩
      · exact .inl h
    · rcases mem_joinSepS h with h | ⟨p2, hp2, hcp⟩
      · exact .inl h
      · exact .inr ⟨p2, List.mem_cons_of_mem _ hp2, hcp⟩

theorem escChar_not_tab {q c x : Char} (hq : q ≠ '\t') (hx : x ∈ escChar q c) :
    x ≠ '\t' := by
  unfold escChar at hx
  split at hx
  · rcases List.mem_cons.mp hx with rfl | hx <;> simp_all
  · split at hx
    · rcases List.mem_cons.mp hx with rfl | hx
      · decide
      · simp only [List.mem_singleton] at hx
        exact hx ▸ hq
    · split at hx
      · rcases List.mem_cons.mp hx with rfl | hx <;> simp_all
      · split at hx
        · rcases List.mem_cons.mp hx with rfl | hx <;> simp_all
        · split at hx
          · rcases List.mem_cons.mp hx with rfl | hx <;> simp_all
          · next h3 _ _ =>
            simp only [List.mem_singleton] at hx
            subst hx
            intro hcon
            exact absurd hcon (by assumption)

theorem pyReprStr_not_mem_tab (s : PyStr) : '\t' ∉ pyReprStr s := by
  unfold pyReprStr
  intro h
  have hq : (if (squote ∈ s && ¬ '"' ∈ s) = true then '"' else squote) ≠ '\t' := by
    split <;> decide
  rcases List.mem_append.mp h with h | h
  · rcases List.mem_append.mp h with h | h
    · simp only [List.mem_singleton] at h
      exact hq h.symm
    · rcases List.mem_flatten.mp h with ⟨l, hl, hcl⟩
      rcases List.mem_map.mp hl with ⟨c, _, rfl⟩
      exact escChar_not_tab hq hcl rfl
  · simp only [List.mem_singleton] at h
    exact hq h.symm

theorem pyReprList_not_mem_tab (l : List PyStr) : '\t' ∉ pyReprList l := by
  unfold pyReprList
  intro h
  rcases List.mem_append.mp h with h | h
  · rcases List.mem_append.mp h with h | h
    · simp at h
    · rcases mem_joinSepS h with h | ⟨p, hp, hcp⟩
      · exact absurd h (by decide)
      · rcases List.mem_map.mp hp with ⟨s, _, rfl⟩
        exact pyReprStr_not_mem_tab s hcp
  · simp at h

/-! # Claim C1: assembly on mismatched sequences -/

set_option maxRecDepth 8000 in
/-- Claim C1 counterexample: with two titles but only one aligned
published/count/duration entry per column, the loop assembles the first
record, then raises `IndexError` at index 1; the caught exception leaves
`video_data` holding that first record, so the returned list is a partial
prefix, not empty as the claim states. -/
theorem c1_partial_prefix_counterexample :
    (Videos.scrape_channel_loop (pstr "@ch") (pstr "UCchannelidentifier00001")
        [pstr "t1", pstr "t2"]
        [pstr "1K views", pstr "1 day ago"] [pstr "1K views", pstr "1 day ago"]
        [pstr "/watch?v=aaa", pstr "/watch?v=bbb"]
        [pstr "/watch?v=aaa", pstr "/watch?v=bbb"]
        [pstr "3:00", pstr "3:00"] none).1.length = 1 ∧
    (Videos.scrape_channel_loop (pstr "@ch") (pstr "UCchannelidentifier00001")
        [pstr "t1", pstr "t2"]
        [pstr "1K views", pstr "1 day ago"] [pstr "1K views", pstr "1 day ago"]
        [pstr "/watch?v=aaa", pstr "/watch?v=bbb"]
        [pstr "/watch?v=aaa", pstr "/watch?v=bbb"]
        [pstr "3:00", pstr "3:00"] none).2 = some .indexError := by
  constructor <;> decide

/-- Claim C1 (amended): when some per-item column is exhausted before the
titles run out (and the normalizer succeeds on the view-count fragments
that exist), the loop raises `IndexError` at the first exhausted index
`effMin`, and the returned record list is exactly the partially assembled
prefix of records before that index — empty only when `effMin = 0`. -/
theorem c1_mismatch_partial_prefix (cname channel_ids : PyStr)
    (titles uploads counts video_ids video_links terms : List PyStr)
    (hfmt : ∀ c ∈ sliceStep2 counts, (format_number (firstTok ' ' c)).isOk = true)
    (hlt : Videos.effMin uploads counts video_ids video_links terms < titles.length) :
    Videos.scrape_channel_loop cname channel_ids titles uploads counts video_ids
        video_links terms none =
      (okRows (Videos.rowAt cname channel_ids titles uploads counts video_ids
          video_links terms) 0
        (Videos.effMin uploads counts video_ids video_links terms),
       some .indexError) := by
  have hcols : Videos.effMin uploads counts video_ids video_links terms ≤
      (sliceOdd uploads).length ∧
      Videos.effMin uploads counts video_ids video_links terms ≤
        (sliceStep2 counts).length ∧
      Videos.effMin uploads counts video_ids video_links terms ≤ video_ids.length ∧
      Videos.effMin uploads counts video_ids video_links terms ≤ video_links.length ∧
      Videos.effMin uploads counts video_ids video_links terms ≤
        (sliceStep2 terms).length := by
    unfold Videos.effMin
    omega
  unfold Videos.scrape_channel_loop
  have hres := assembleGo_err
    (Videos.item cname channel_ids titles uploads counts video_ids
      video_links terms)
    (f := Videos.rowAt cname channel_ids titles uploads
      counts video_ids video_links terms)
    (Videos.effMin uploads counts video_ids video_links terms)
    titles.length 0 []
    hlt
    (fun j hj => by
      rw [Nat.zero_add]
      exact videos_item_ok (by omega) (by omega) (by omega) (by omega) (by omega)
        (by omega) (exists_ok_of_isOk (hfmt _ (getD_mem (by omega)))))
    (by
      rw [Nat.zero_add]
      exact videos_item_err hlt (Nat.le_refl _)
        (fun c hc => exists_ok_of_isOk (hfmt c hc)))
  simpa using hres

/-! # Claim C3: equal-length assembly with and without a cap -/

/-- Claim C3 (amended): over per-item field sequences of equal length `n`
(and view-count fragments the normalizer succeeds on), the videos loop and
the shorts loop each return exactly `capBound max_videos n = min n k`
records (`n` when the cap is unset), in extraction order, with no error.
The success hypothesis on the normalizer is necessary: a view-count
fragment such as `""` makes `format_number` raise `IndexError`, aborting
the loop partway (see the counterexample). -/
theorem c3_equal_lengths_capped (cname channel_ids : PyStr)
    (titles uploads counts video_ids video_links terms : List PyStr)
    (stitles scounts svideo_ids svideo_links : List PyStr)
    (maxVideos : Option Nat)
    (hp : (sliceOdd uploads).length = titles.length)
    (hc : (sliceStep2 counts).length = titles.length)
    (hv : video_ids.length = titles.length)
    (hl : video_links.length = titles.length)
    (hm : (sliceStep2 terms).length = titles.length)
    (hfmt : ∀ c ∈ sliceStep2 counts, (format_number (firstTok ' ' c)).isOk = true)
    (hsc : scounts.length = stitles.length)
    (hsv : svideo_ids.length = stitles.length)
    (hsl : svideo_links.length = stitles.length)
    (hsfmt : ∀ c ∈ scounts, (format_number (firstTok ' ' c)).isOk = true) :
    Videos.scrape_channel_loop cname channel_ids titles uploads counts video_ids
        video_links terms maxVideos =
      (okRows (Videos.rowAt cname channel_ids titles uploads counts video_ids
        video_links terms) 0 (capBound maxVideos titles.length), none) ∧
    Shorts.scrape_channel_loop cname channel_ids stitles scounts svideo_ids
        svideo_links maxVideos =
      (okRows (Shorts.rowAt cname channel_ids stitles scounts svideo_ids
        svideo_links) 0 (capBound maxVideos stitles.length), none) := by
  constructor
  · unfold Videos.scrape_channel_loop
    cases maxVideos with
    | none =>
      have hres := assembleGo_ok_none
        (Videos.item cname channel_ids titles uploads counts video_ids
          video_links terms)
        (f := Videos.rowAt cname channel_ids titles
          uploads counts video_ids video_links terms) titles.length 0 []
        (fun j hj => by
          rw [Nat.zero_add]
          exact videos_item_ok (by omega) (by omega) (by omega) (by omega) (by omega)
            (by omega) (exists_ok_of_isOk (hfmt _ (getD_mem (by omega)))))
      simpa [capBound] using hres
    | some k =>
      have hres := assembleGo_ok_some
        (Videos.item cname channel_ids titles uploads counts video_ids
          video_links terms)
        (f := Videos.rowAt cname channel_ids titles
          uploads counts video_ids video_links terms) (m := k) titles.length 0 []
        (fun j hj => by
          rw [Nat.zero_add]
          exact videos_item_ok (by omega) (by omega) (by omega) (by omega) (by omega)
            (by omega) (exists_ok_of_isOk (hfmt _ (getD_mem (by omega)))))
      simpa [capBound] using hres
  · unfold Shorts.scrape_channel_loop
    cases maxVideos with
    | none =>
      have hres := assembleGo_ok_none
        (Shorts.item cname channel_ids stitles scounts svideo_ids
          svideo_links)
        (f := Shorts.rowAt cname channel_ids stitles
          scounts svideo_ids svideo_links) stitles.length 0 []
        (fun j hj => by
          rw [Nat.zero_add]
          exact shorts_item_ok (by omega) (by omega) (by omega) (by omega)
            (exists_ok_of_isOk (hsfmt _ (getD_mem (by omega)))))
      simpa [capBound] using hres
    | some k =>
      have hres := assembleGo_ok_some
        (Shorts.item cname channel_ids stitles scounts svideo_ids
          svideo_links)
        (f := Shorts.rowAt cname channel_ids stitles
          scounts svideo_ids svideo_links) (m := k) stitles.length 0 []
        (fun j hj => by
          rw [Nat.zero_add]
          exact shorts_item_ok (by omega) (by omega) (by omega) (by omega)
            (exists_ok_of_isOk (hsfmt _ (getD_mem (by omega)))))
      simpa [capBound] using hres

set_option maxRecDepth 8000 in
/-- Claim C3 counterexample: with equal-length field sequences (one item)
whose view-count fragment is the empty string, `format_number` raises
`IndexError` inside the loop, the channel-level `except` catches it, and
the loop yields 0 records instead of the claimed 1 — so the claim does not
hold for every content of equal-length sequences. -/
theorem c3_empty_count_counterexample :
    Shorts.scrape_channel_loop (pstr "@e") (pstr "ide") [pstr "s1"] [pstr ""]
        [pstr "/shorts/e1"] [pstr "/shorts/e1"] none =
      ([], some .indexError) := by decide

set_option maxRecDepth 8000 in
/-- Witness for `c3_equal_lengths_capped`: two videos capped at one record,
and one short uncapped. -/
theorem c3_equal_lengths_capped_witness :
    ((sliceOdd [pstr "10 views", pstr "1 day ago", pstr "20 views",
        pstr "2 days ago"]).length = 2) ∧
    (Videos.scrape_channel_loop (pstr "@w") (pstr "idw") [pstr "a", pstr "b"]
        [pstr "10 views", pstr "1 day ago", pstr "20 views", pstr "2 days ago"]
        [pstr "10 views", pstr "1 day ago", pstr "20 views", pstr "2 days ago"]
        [pstr "/watch?v=w1", pstr "/watch?v=w2"]
        [pstr "/watch?v=w1", pstr "/watch?v=w2"]
        [pstr "1:00", pstr "x", pstr "2:00", pstr "y"] (some 1) =
      (okRows (Videos.rowAt (pstr "@w") (pstr "idw") [pstr "a", pstr "b"]
        [pstr "10 views", pstr "1 day ago", pstr "20 views", pstr "2 days ago"]
        [pstr "10 views", pstr "1 day ago", pstr "20 views", pstr "2 days ago"]
        [pstr "/watch?v=w1", pstr "/watch?v=w2"]
        [pstr "/watch?v=w1", pstr "/watch?v=w2"]
        [pstr "1:00", pstr "x", pstr "2:00", pstr "y"]) 0 (capBound (some 1) 2),
       none)) ∧
    (Shorts.scrape_channel_loop (pstr "@w") (pstr "idw") [pstr "s"]
        [pstr "5 views"] [pstr "/shorts/w3"] [pstr "/shorts/w3"] none =
      (okRows (Shorts.rowAt (pstr "@w") (pstr "idw") [pstr "s"] [pstr "5 views"]
        [pstr "/shorts/w3"] [pstr "/shorts/w3"]) 0 (capBound none 1), none)) := by
  refine ⟨by decide, ?_, ?_⟩
  · exact (c3_equal_lengths_capped (pstr "@w") (pstr "idw") [pstr "a", pstr "b"]
      [pstr "10 views", pstr "1 day ago", pstr "20 views", pstr "2 days ago"]
      [pstr "10 views", pstr "1 day ago", pstr "20 views", pstr "2 days ago"]
      [pstr "/watch?v=w1", pstr "/watch?v=w2"]
      [pstr "/watch?v=w1", pstr "/watch?v=w2"]
      [pstr "1:00", pstr "x", pstr "2:00", pstr "y"]
      [pstr "s"] [pstr "5 views"] [pstr "/shorts/w3"] [pstr "/shorts/w3"]
      (some 1) (by decide) (by decide) (by decide) (by decide) (by decide)
      (by decide) (by decide) (by decide) (by decide) (by decide)).1
  · exact (c3_equal_lengths_capped (pstr "@w") (pstr "idw") [pstr "a", pstr "b"]
      [pstr "10 views", pstr "1 day ago", pstr "20 views", pstr "2 days ago"]
      [pstr "10 views", pstr "1 day ago", pstr "20 views", pstr "2 days ago"]
      [pstr "/watch?v=w1", pstr "/watch?v=w2"]
      [pstr "/watch?v=w1", pstr "/watch?v=w2"]
      [pstr "1:00", pstr "x", pstr "2:00", pstr "y"]
      [pstr "s"] [pstr "5 views"] [pstr "/shorts/w3"] [pstr "/shorts/w3"]
      none (by decide) (by decide) (by decide) (by decide) (by decide)
      (by decide) (by decide) (by decide) (by decide) (by decide)).2

/-! # Claim C6: contribution of a failing channel to the combined export -/

set_option maxRecDepth 8000 in
/-- Claim C6 counterexample: a channel whose extraction fails partway
(caught at the channel boundary) still contributes its partly assembled
records to `data` in `main` — here one record, not zero. -/
theorem c6_failing_channel_counterexample :
    (Videos.scrape_channel_loop (pstr "@f") (pstr "idf") [pstr "v1", pstr "v2"]
        [pstr "2K views", pstr "2 days ago"] [pstr "2K views", pstr "2 days ago"]
        [pstr "/watch?v=f1", pstr "/watch?v=f2"]
        [pstr "/watch?v=f1", pstr "/watch?v=f2"]
        [pstr "4:10", pstr "4:10"] none).2.isSome = true ∧
    (mainData [Videos.scrape_channel_loop (pstr "@f") (pstr "idf")
        [pstr "v1", pstr "v2"]
        [pstr "2K views", pstr "2 days ago"] [pstr "2K views", pstr "2 days ago"]
        [pstr "/watch?v=f1", pstr "/watch?v=f2"]
        [pstr "/watch?v=f1", pstr "/watch?v=f2"]
        [pstr "4:10", pstr "4:10"] none]).length = 1 := by
  constructor <;> decide

/-- Claim C6 (amended): each channel contributes to `data` exactly the
record list its `scrape_channel` call returned — for a failing channel,
the prefix assembled before the failure.  The contribution is zero records
only when the channel failed before assembling its first record; in
general a failing channel's partial records do reach the combined
export. -/
theorem c6_channel_contribution (pre post : List (List Row × Option PyErr))
    (r : List Row × Option PyErr) :
    mainData (pre ++ r :: post) = mainData pre ++ r.1 ++ mainData post := by
  simp [mainData]

/-! # Claim C5: fixed column counts per variant -/

set_option maxRecDepth 8000 in
/-- Claim C5 counterexample: a tab character inside a fragment inflates the
record width, because the source joins the fields with tabs and re-splits
on tabs — a title containing one tab yields a 9-field videos record
instead of the declared 8. -/
theorem c5_tab_in_title_counterexample :
    ((Videos.scrape_channel_loop (pstr "@c5") (pstr "idc5") [pstr "a\tb"]
        [pstr "9 views", pstr "3 days ago"] [pstr "9 views", pstr "3 days ago"]
        [pstr "/watch?v=q1"] [pstr "/watch?v=q1"] [pstr "0:30"] none).1.map
          (fun r => r.length)) = [9] := by decide

/-- Claim C5 (amended): every record assembled by the videos loop has
exactly 8 fields, by the shorts loop exactly 6, and the channel summary
record exactly 8, provided no fragment or channel attribute contains a tab
character; a tab inside a fragment inflates the count (see the
counterexample).  The keyword list needs no such hypothesis: `repr`
escapes tabs. -/
theorem c5_column_counts (cname channel_ids : PyStr)
    (titles uploads counts video_ids video_links terms : List PyStr)
    (stitles scounts svideo_ids svideo_links : List PyStr)
    (maxVideos : Option Nat)
    (description : PyStr) (keywords : List PyStr)
    (subscriber joined location global_views : PyStr)
    (hcn : '\t' ∉ cname) (hci : '\t' ∉ channel_ids)
    (hta : ∀ s ∈ titles, '\t' ∉ s) (hup : ∀ s ∈ uploads, '\t' ∉ s)
    (hco : ∀ s ∈ counts, '\t' ∉ s) (hvi : ∀ s ∈ video_ids, '\t' ∉ s)
    (hvl : ∀ s ∈ video_links, '\t' ∉ s) (hte : ∀ s ∈ terms, '\t' ∉ s)
    (hsta : ∀ s ∈ stitles, '\t' ∉ s) (hsco : ∀ s ∈ scounts, '\t' ∉ s)
    (hsvi : ∀ s ∈ svideo_ids, '\t' ∉ s) (hsvl : ∀ s ∈ svideo_links, '\t' ∉ s)
    (hde : '\t' ∉ description) (hsu : '\t' ∉ subscriber) (hjo : '\t' ∉ joined)
    (hlo : '\t' ∉ location) (hgv : '\t' ∉ global_views) :
    (∀ r ∈ (Videos.scrape_channel_loop cname channel_ids titles uploads counts
        video_ids video_links terms maxVideos).1, r.length = 8) ∧
    (∀ r ∈ (Shorts.scrape_channel_loop cname channel_ids stitles scounts
        svideo_ids svideo_links maxVideos).1, r.length = 6) ∧
    (Summary.record cname channel_ids description keywords subscriber joined
        location global_views).length = 8 := by
  have hlit : '\t' ∉ pstr "https://www.youtube.com" := by decide
  refine ⟨?_, ?_, ?_⟩
  · intro r hr
    rcases mem_assembleGo hr with hmem | ⟨j, hj⟩
    · simp at hmem
    · obtain ⟨title, published, counter, view, href1, href2, rawTerm, hti, hpu, hcu,
        hfv, hv1, hv2, htm, rfl⟩ := videos_item_shape hj
      rw [mkRow_eq (by simp) ?hfields]
      case hfields =>
        intro f hf
        simp only [List.mem_cons] at hf
        rcases hf with rfl | rfl | rfl | rfl | rfl | rfl | rfl | rfl | hf
        · exact hcn
        · exact hci
        · exact hta _ hti
        · exact hup _ (mem_of_mem_sliceOdd hpu)
        · exact format_number_not_mem_tab hfv
            (firstTok_not_mem (hco _ (mem_of_mem_sliceStep2 hcu)))
        · exact lastSeg_not_mem (hvi _ hv1)
        · intro hmem
          rcases List.mem_append.mp hmem with hmem | hmem
          · exact hlit hmem
          · exact hvl _ hv2 hmem
        · intro hmem
          exact hte _ (mem_of_mem_sliceStep2 htm) (mem_of_mem_pyStrip hmem)
        · simp at hf
      rfl
  · intro r hr
    rcases mem_assembleGo hr with hmem | ⟨j, hj⟩
    · simp at hmem
    · obtain ⟨title, counter, view, href1, href2, hti, hcu, hfv, hv1, hv2, rfl⟩ :=
        shorts_item_shape hj
      rw [mkRow_eq (by simp) ?hfields]
      case hfields =>
        intro f hf
        simp only [List.mem_cons] at hf
        rcases hf with rfl | rfl | rfl | rfl | rfl | rfl | hf
        · exact hcn
        · exact hci
        · exact hsta _ hti
        · exact format_number_not_mem_tab hfv (firstTok_not_mem (hsco _ hcu))
        · exact lastSeg_not_mem (hsvi _ hv1)
        · intro hmem
          rcases List.mem_append.mp hmem with hmem | hmem
          · exact hlit hmem
          · exact hsvl _ hv2 hmem
        · simp at hf
      rfl
  · unfold Summary.record
    rw [mkRow_eq (by simp) ?hfields]
    case hfields =>
      intro f hf
      simp only [List.mem_cons] at hf
      rcases hf with rfl | rfl | rfl | rfl | rfl | rfl | rfl | rfl | hf
      · exact hcn
      · exact hci
      · exact hde
      · exact pyReprList_not_mem_tab keywords
      · exact hsu
      · exact hjo
      · exact hlo
      · exact hgv
      · simp at hf
    rfl

set_option maxRecDepth 8000 in
/-- Witness for `c5_column_counts` at concrete tab-free inputs. -/
theorem c5_column_counts_witness :
    ('\t' ∉ pstr "@c5w") ∧
    ((∀ r ∈ (Videos.scrape_channel_loop (pstr "@c5w") (pstr "idw5")
        [pstr "ta"] [pstr "7 views", pstr "5 days ago"]
        [pstr "7 views", pstr "5 days ago"] [pstr "/watch?v=m1"]
        [pstr "/watch?v=m1"] [pstr "0:55"] none).1, r.length = 8) ∧
     (∀ r ∈ (Shorts.scrape_channel_loop (pstr "@c5w") (pstr "idw5")
        [pstr "sa"] [pstr "8 views"] [pstr "/shorts/m2"]
        [pstr "/shorts/m2"] none).1, r.length = 6) ∧
     (Summary.record (pstr "@c5w") (pstr "idw5") (pstr "desc") [pstr "k1"]
        (pstr "900") (pstr "Jan 1; 2020") (pstr "Earth")
        (pstr "5,000")).length = 8) :=
  ⟨by decide,
    c5_column_counts (pstr "@c5w") (pstr "idw5")
      [pstr "ta"] [pstr "7 views", pstr "5 days ago"]
      [pstr "7 views", pstr "5 days ago"] [pstr "/watch?v=m1"]
      [pstr "/watch?v=m1"] [pstr "0:55"]
      [pstr "sa"] [pstr "8 views"] [pstr "/shorts/m2"] [pstr "/shorts/m2"]
      none (pstr "desc") [pstr "k1"] (pstr "900") (pstr "Jan 1; 2020")
      (pstr "Earth") (pstr "5,000")
      (by decide) (by decide) (by decide) (by decide) (by decide) (by decide)
      (by decide) (by decide) (by decide) (by decide) (by decide) (by decide)
      (by decide) (by decide) (by decide) (by decide) (by decide)⟩

set_option maxRecDepth 8000 in
/-- Witness for `c1_mismatch_partial_prefix`: three titles, columns of
per-item length two — the loop returns the two-record prefix and the
`IndexError`. -/
theorem c1_mismatch_partial_prefix_witness :
    (Videos.effMin
        [pstr "1 view", pstr "9 days ago", pstr "2 views", pstr "8 days ago"]
        [pstr "1 view", pstr "9 days ago", pstr "2 views", pstr "8 days ago"]
        [pstr "/watch?v=p1", pstr "/watch?v=p2"]
        [pstr "/watch?v=p1", pstr "/watch?v=p2"]
        [pstr "6:00", pstr "x", pstr "7:00", pstr "y"] <
      ([pstr "pa", pstr "pb", pstr "pc"] : List PyStr).length) ∧
    (Videos.scrape_channel_loop (pstr "@p") (pstr "idp")
        [pstr "pa", pstr "pb", pstr "pc"]
        [pstr "1 view", pstr "9 days ago", pstr "2 views", pstr "8 days ago"]
        [pstr "1 view", pstr "9 days ago", pstr "2 views", pstr "8 days ago"]
        [pstr "/watch?v=p1", pstr "/watch?v=p2"]
        [pstr "/watch?v=p1", pstr "/watch?v=p2"]
        [pstr "6:00", pstr "x", pstr "7:00", pstr "y"] none =
      (okRows (Videos.rowAt (pstr "@p") (pstr "idp")
          [pstr "pa", pstr "pb", pstr "pc"]
          [pstr "1 view", pstr "9 days ago", pstr "2 views", pstr "8 days ago"]
          [pstr "1 view", pstr "9 days ago", pstr "2 views", pstr "8 days ago"]
          [pstr "/watch?v=p1", pstr "/watch?v=p2"]
          [pstr "/watch?v=p1", pstr "/watch?v=p2"]
          [pstr "6:00", pstr "x", pstr "7:00", pstr "y"]) 0
        (Videos.effMin
          [pstr "1 view", pstr "9 days ago", pstr "2 views", pstr "8 days ago"]
          [pstr "1 view", pstr "9 days ago", pstr "2 views", pstr "8 days ago"]
          [pstr "/watch?v=p1", pstr "/watch?v=p2"]
          [pstr "/watch?v=p1", pstr "/watch?v=p2"]
          [pstr "6:00", pstr "x", pstr "7:00", pstr "y"]),
       some .indexError)) :=
  ⟨by decide,
    c1_mismatch_partial_prefix (pstr "@p") (pstr "idp")
      [pstr "pa", pstr "pb", pstr "pc"]
      [pstr "1 view", pstr "9 days ago", pstr "2 views", pstr "8 days ago"]
      [pstr "1 view", pstr "9 days ago", pstr "2 views", pstr "8 days ago"]
      [pstr "/watch?v=p1", pstr "/watch?v=p2"]
      [pstr "/watch?v=p1", pstr "/watch?v=p2"]
      [pstr "6:00", pstr "x", pstr "7:00", pstr "y"]
      (by decide) (by decide)⟩

/-- Witness for `c7_videos_streams_paths` at concrete channel, timestamps
and extension. -/
theorem c7_videos_streams_paths_witness :
    ((pstr "20230101_000000" : PyStr).length = (pstr "20230101_000001" : PyStr).length) ∧
    (pstr "20230101_000000" ≠ pstr "20230101_000001") ∧
    (videosExportPath (pstr "@c") (pstr "20231206_153045") (pstr "csv") =
      specExportPath (pstr "downloads") (pstr "@c") (pstr "videos")
        (pstr "20231206_153045") (pstr "csv") ∧
     streamsExportPath (pstr "@c") (pstr "20231206_153045") (pstr "csv") =
      specExportPath (pstr "downloads") (pstr "@c") (pstr "streams")
        (pstr "20231206_153045") (pstr "csv") ∧
     videosExportPath (pstr "@c") (pstr "20230101_000000") (pstr "csv") ≠
      videosExportPath (pstr "@c") (pstr "20230101_000001") (pstr "csv") ∧
     streamsExportPath (pstr "@c") (pstr "20230101_000000") (pstr "csv") ≠
      streamsExportPath (pstr "@c") (pstr "20230101_000001") (pstr "csv")) :=
  ⟨by decide, by decide,
    c7_videos_streams_paths (pstr "@c") (pstr "20231206_153045") (pstr "csv")
      (pstr "20230101_000000") (pstr "20230101_000001") (by decide) (by decide)⟩

/-! # Serialization lemmas -/

theorem csvClean_chars {f : PyStr} (h : csvClean f = true) :
    ∀ c ∈ f, ¬ c = ',' ∧ ¬ c = '"' ∧ ¬ c = '\n' ∧ ¬ c = '\r' := by
  unfold csvClean at h
  rw [List.all_eq_true] at h
  intro c hc
  have hx := h c hc
  simp only [Bool.not_eq_true', Bool.or_eq_false_iff,
    decide_eq_false_iff_not] at hx
  tauto

theorem csvClean_spec {f : PyStr} (h : csvClean f = true) :
    csvNeedsQuote f = false ∧ ',' ∉ f ∧ '\n' ∉ f := by
  have hx := csvClean_chars h
  refine ⟨?_, ?_, ?_⟩
  · unfold csvNeedsQuote
    rw [List.any_eq_false]
    intro c hc
    have := hx c hc
    simp only [Bool.or_eq_true, decide_eq_true_eq, not_or]
    tauto
  · exact fun hc => (hx _ hc).1 rfl
  · exact fun hc => (hx _ hc).2.2.1 rfl

theorem tsvClean_chars {f : PyStr} (h : tsvClean f = true) :
    ∀ c ∈ f, ¬ c = '\t' ∧ ¬ c = ',' ∧ ¬ c = '"' ∧ ¬ c = '\n' ∧ ¬ c = '\r' := by
  unfold tsvClean at h
  rw [List.all_eq_true] at h
  intro c hc
  have hx := h c hc
  simp only [Bool.not_eq_true', Bool.or_eq_false_iff,
    decide_eq_false_iff_not] at hx
  tauto

theorem tsvClean_spec {f : PyStr} (h : tsvClean f = true) :
    csvClean f = true ∧ '\t' ∉ f ∧ '\n' ∉ f := by
  have hx := tsvClean_chars h
  refine ⟨?_, ?_, ?_⟩
  · unfold csvClean
    rw [List.all_eq_true]
    intro c hc
    have := hx c hc
    simp only [Bool.not_eq_true', Bool.or_eq_false_iff, decide_eq_false_iff_not]
    tauto
  · exact fun hc => (hx _ hc).1 rfl
  · exact fun hc => (hx _ hc).2.2.2.1 rfl

theorem csvLine_clean {r : Row} (h : ∀ f ∈ r, csvNeedsQuote f = false) :
    csvLine r = joinSepS [','] r ++ ['\n'] := by
  have hmap : r.map csvField = r := by
    rw [show r.map csvField = r.map id from
      List.map_congr_left (fun f hf => by simp [csvField, h f hf]), List.map_id]
  unfold csvLine
  rw [hmap]

theorem joinSepS_ne_nil {sep p q : PyStr} {rest : List PyStr} (hsep : sep ≠ []) :
    joinSepS sep (p :: q :: rest) ≠ [] := by
  rw [joinSepS]
  exact List.append_ne_nil_of_left_ne_nil
    (List.append_ne_nil_of_right_ne_nil _ hsep) _

theorem fileLines_flatten :
    ∀ (lines : List PyStr), (∀ l ∈ lines, l ≠ [] ∧ '\n' ∉ l) →
      fileLines ((lines.map (fun l => l ++ ['\n'])).flatten) = lines
  | [], _ => by simp [fileLines, splitChar]
  | l :: rest, h => by
    have h0 := h l (List.mem_cons_self _ _)
    have hrec := fileLines_flatten rest
      (fun x hx => h x (List.mem_cons_of_mem _ hx))
    unfold fileLines at hrec ⊢
    simp only [List.map_cons, List.flatten_cons]
    have hassoc : (l ++ ['\n']) ++ (rest.map (fun x => x ++ ['\n'])).flatten =
        l ++ '\n' :: (rest.map (fun x => x ++ ['\n'])).flatten := by simp
    rw [hassoc, splitChar_append h0.2, List.filter_cons,
      if_pos (by simpa using h0.1), hrec]

theorem csvRowsOf_toCsvText {cols : List PyStr} {rows : List Row}
    (hall : ∀ r ∈ cols :: rows, 2 ≤ r.length ∧ ∀ f ∈ r, csvClean f = true) :
    csvRowsOf (toCsvText cols rows) = cols :: rows := by
  have hline : ∀ r ∈ cols :: rows, csvLine r = joinSepS [','] r ++ ['\n'] :=
    fun r hr => csvLine_clean (fun f hf => (csvClean_spec ((hall r hr).2 f hf)).1)
  have hflat : toCsvText cols rows =
      (((cols :: rows).map (fun r => joinSepS [','] r)).map
        (fun l => l ++ ['\n'])).flatten := by
    unfold toCsvText
    rw [show csvLine cols ++ (rows.map csvLine).flatten =
      ((cols :: rows).map csvLine).flatten by simp]
    congr 1
    rw [List.map_map]
    exact List.map_congr_left (fun r hr => hline r hr)
  have hlines : ∀ l ∈ (cols :: rows).map (fun r => joinSepS [','] r),
      l ≠ [] ∧ '\n' ∉ l := by
    intro l hl
    rcases List.mem_map.mp hl with ⟨r, hr, rfl⟩
    obtain ⟨hlen, hclean⟩ := hall r hr
    constructor
    · rcases r with _ | ⟨p, _ | ⟨q, rest⟩⟩
      · simp at hlen
      · simp at hlen
      · exact joinSepS_ne_nil (by simp)
    · intro hmem
      rcases mem_joinSepS hmem with hmem | ⟨p, hp, hcp⟩
      · simp at hmem
      · exact absurd hcp ((csvClean_spec (hclean p hp)).2.2)
  unfold csvRowsOf
  rw [hflat, fileLines_flatten _ hlines, List.map_map]
  have hsplit : ((cols :: rows).map (fun r => splitChar ',' (joinSepS [','] r))) =
      (cols :: rows).map id := by
    apply List.map_congr_left
    intro r hr
    apply splitChar_joinSepS
    · intro hrnil
      obtain ⟨hlen, _⟩ := hall r hr
      subst hrnil
      simp at hlen
    · exact fun p hp => (csvClean_spec ((hall r hr).2 p hp)).2.1
  exact hsplit.trans (List.map_id _)

theorem shortsDf_clean {rows : List Row}
    (hall : ∀ r ∈ shortsHeader :: rows, 2 ≤ r.length ∧ ∀ f ∈ r, tsvClean f = true) :
    shortsDf rows = (shortsHeader, rows) := by
  have hflat : shortsTxtText rows =
      (((shortsHeader :: rows).map (fun r => joinSepS ['\t'] r)).map
        (fun l => l ++ ['\n'])).flatten := by
    unfold shortsTxtText
    rw [show tsvLine shortsHeader ++ (rows.map tsvLine).flatten =
      ((shortsHeader :: rows).map tsvLine).flatten by simp]
    rw [List.map_map]
    rfl
  have hlines : ∀ l ∈ (shortsHeader :: rows).map (fun r => joinSepS ['\t'] r),
      l ≠ [] ∧ '\n' ∉ l := by
    intro l hl
    rcases List.mem_map.mp hl with ⟨r, hr, rfl⟩
    obtain ⟨hlen, hclean⟩ := hall r hr
    constructor
    · rcases r with _ | ⟨p, _ | ⟨q, rest⟩⟩
      · simp at hlen
      · simp at hlen
      · exact joinSepS_ne_nil (by simp)
    · intro hmem
      rcases mem_joinSepS hmem with hmem | ⟨p, hp, hcp⟩
      · simp at hmem
      · exact absurd hcp (tsvClean_spec (hclean p hp)).2.2
  have hsplit : ∀ r ∈ shortsHeader :: rows,
      splitChar '\t' (joinSepS ['\t'] r) = r := by
    intro r hr
    apply splitChar_joinSepS
    · intro hrnil
      obtain ⟨hlen, _⟩ := hall r hr
      subst hrnil
      simp at hlen
    · exact fun p hp => (tsvClean_spec ((hall r hr).2 p hp)).2.1
  unfold shortsDf readCsvTab
  rw [hflat, fileLines_flatten _ hlines]
  simp only [List.map_cons]
  rw [hsplit shortsHeader (List.mem_cons_self _ _)]
  have : (rows.map (fun r => joinSepS ['\t'] r)).map (splitChar '\t') =
      rows.map id := by
    rw [List.map_map]
    exact List.map_congr_left
      (fun r hr => hsplit r (List.mem_cons_of_mem _ hr))
  rw [this, List.map_id]

theorem map_snd_zip_of_len {cols : List PyStr} {r : Row}
    (h : r.length = cols.length) : (cols.zip r).map Prod.snd = r :=
  List.map_snd_zip cols r (by omega)

theorem map_fst_zip_of_len {cols : List PyStr} {r : Row}
    (h : r.length = cols.length) : (cols.zip r).map Prod.fst = cols :=
  List.map_fst_zip cols r (by omega)

/-! # Claim C8: CSV / JSON export round trip -/

/-- Claim C8 counterexample: the shorts export re-reads its own
tab-separated TXT file, so a newline inside a fragment splits one record
into two rows — exporting a single record yields a DataFrame of 2 rows,
hence a CSV with 2 data rows and a JSON array with 2 objects, not 1. -/
theorem c8_newline_splits_shorts_row :
    (([[pstr "c", pstr "i", pstr "a\nb", pstr "5", pstr "d1", pstr "L1"]] :
        List Row).length = 1) ∧
    ((shortsDf [[pstr "c", pstr "i", pstr "a\nb", pstr "5", pstr "d1",
        pstr "L1"]]).2).length = 2 ∧
    (shortsJsonObjects [[pstr "c", pstr "i", pstr "a\nb", pstr "5", pstr "d1",
        pstr "L1"]]).length = 2 := by
  refine ⟨rfl, ?_, ?_⟩ <;> decide

/-- Claim C8 (amended): for the videos export, a record sequence of length
`m` with 8 fields per record and comma/quote/newline-free fields yields a
CSV with exactly the `m` records as data rows after the header and a JSON
array of `m` objects whose keys are the header in order and whose values
are the CSV row values in the same order.  The same holds for the shorts
export provided the fields are additionally tab-free, because the shorts
CSV/JSON are re-read from the tab-separated TXT file; a newline inside a
field breaks the claim there (see the counterexample). -/
theorem c8_csv_json_roundtrip (rows srows : List Row)
    (hw : ∀ r ∈ rows, r.length = 8)
    (hclean : ∀ r ∈ rows, ∀ f ∈ r, csvClean f = true)
    (hsw : ∀ r ∈ srows, r.length = 6)
    (hsclean : ∀ r ∈ srows, ∀ f ∈ r, tsvClean f = true) :
    dataFrame videosHeader rows = .ok (videosHeader, rows) ∧
    csvRowsOf (videosCsvText rows) =
      videosHeader :: (videosJsonObjects rows).map (fun o => o.map Prod.snd) ∧
    (videosJsonObjects rows).length = rows.length ∧
    (∀ o ∈ videosJsonObjects rows, o.map Prod.fst = videosHeader) ∧
    shortsDf srows = (shortsHeader, srows) ∧
    csvRowsOf (shortsCsvText srows) =
      shortsHeader :: (shortsJsonObjects srows).map (fun o => o.map Prod.snd) ∧
    (shortsJsonObjects srows).length = srows.length ∧
    (∀ o ∈ shortsJsonObjects srows, o.map Prod.fst = shortsHeader) := by
  have hvhl : videosHeader.length = 8 := by decide
  have hshl : shortsHeader.length = 6 := by decide
  have hvsnd : (videosJsonObjects rows).map (fun o => o.map Prod.snd) = rows := by
    unfold videosJsonObjects jsonRecords
    rw [List.map_map]
    exact (List.map_congr_left (fun r hr =>
      map_snd_zip_of_len ((hw r hr).trans hvhl.symm))).trans (List.map_id _)
  have hsall : ∀ r ∈ shortsHeader :: srows, 2 ≤ r.length ∧ ∀ f ∈ r, tsvClean f = true := by
    intro r hr
    rcases List.mem_cons.mp hr with rfl | hr
    · exact ⟨by decide, by decide⟩
    · exact ⟨by have := hsw r hr; omega, hsclean r hr⟩
  have hsdf : shortsDf srows = (shortsHeader, srows) := shortsDf_clean hsall
  have hsobj : shortsJsonObjects srows = jsonRecords shortsHeader srows := by
    unfold shortsJsonObjects
    rw [hsdf]
  have hssnd : (shortsJsonObjects srows).map (fun o => o.map Prod.snd) = srows := by
    rw [hsobj]
    unfold jsonRecords
    rw [List.map_map]
    exact (List.map_congr_left (fun r hr =>
      map_snd_zip_of_len ((hsw r hr).trans hshl.symm))).trans (List.map_id _)
  refine ⟨?_, ?_, ?_, ?_, hsdf, ?_, ?_, ?_⟩
  · unfold dataFrame
    rw [if_pos]
    rw [List.all_eq_true]
    intro r hr
    simp [hw r hr, hvhl]
  · rw [hvsnd]
    apply csvRowsOf_toCsvText
    intro r hr
    rcases List.mem_cons.mp hr with rfl | hr
    · exact ⟨by decide, by decide⟩
    · exact ⟨by have := hw r hr; omega, hclean r hr⟩
  · unfold videosJsonObjects jsonRecords
    rw [List.length_map]
  · intro o ho
    rcases List.mem_map.mp ho with ⟨r, hr, rfl⟩
    exact map_fst_zip_of_len ((hw r hr).trans hvhl.symm)
  · rw [hssnd]
    unfold shortsCsvText
    rw [hsdf]
    show csvRowsOf (toCsvText shortsHeader srows) = shortsHeader :: srows
    apply csvRowsOf_toCsvText
    intro r hr
    rcases List.mem_cons.mp hr with rfl | hr
    · exact ⟨by decide, by decide⟩
    · exact ⟨by have := hsw r hr; omega,
        fun f hf => (tsvClean_spec (hsclean r hr f hf)).1⟩
  · rw [hsobj]
    unfold jsonRecords
    rw [List.length_map]
  · intro o ho
    rw [hsobj] at ho
    rcases List.mem_map.mp ho with ⟨r, hr, rfl⟩
    exact map_fst_zip_of_len ((hsw r hr).trans hshl.symm)

set_option maxRecDepth 8000 in
/-- Witness for `c8_csv_json_roundtrip`: one videos record and one shorts
record with clean fields. -/
theorem c8_csv_json_roundtrip_witness :
    ((∀ r ∈ ([[pstr "@c8", pstr "id8", pstr "t8", pstr "1 day ago",
        pstr "900", pstr "v8", pstr "L8", pstr "2:00"]] : List Row),
        r.length = 8) ∧
     (∀ r ∈ ([[pstr "@c8", pstr "id8", pstr "t8", pstr "1 day ago",
        pstr "900", pstr "v8", pstr "L8", pstr "2:00"]] : List Row),
        ∀ f ∈ r, csvClean f = true) ∧
     (∀ r ∈ ([[pstr "@c8", pstr "id8", pstr "s8", pstr "900", pstr "w8",
        pstr "M8"]] : List Row), r.length = 6) ∧
     (∀ r ∈ ([[pstr "@c8", pstr "id8", pstr "s8", pstr "900", pstr "w8",
        pstr "M8"]] : List Row), ∀ f ∈ r, tsvClean f = true)) ∧
    (dataFrame videosHeader [[pstr "@c8", pstr "id8", pstr "t8",
        pstr "1 day ago", pstr "900", pstr "v8", pstr "L8", pstr "2:00"]] =
      .ok (videosHeader, [[pstr "@c8", pstr "id8", pstr "t8", pstr "1 day ago",
        pstr "900", pstr "v8", pstr "L8", pstr "2:00"]]) ∧
     csvRowsOf (videosCsvText [[pstr "@c8", pstr "id8", pstr "t8",
        pstr "1 day ago", pstr "900", pstr "v8", pstr "L8", pstr "2:00"]]) =
      videosHeader :: (videosJsonObjects [[pstr "@c8", pstr "id8", pstr "t8",
        pstr "1 day ago", pstr "900", pstr "v8", pstr "L8",
        pstr "2:00"]]).map (fun o => o.map Prod.snd) ∧
     (videosJsonObjects [[pstr "@c8", pstr "id8", pstr "t8", pstr "1 day ago",
        pstr "900", pstr "v8", pstr "L8", pstr "2:00"]]).length =
      ([[pstr "@c8", pstr "id8", pstr "t8", pstr "1 day ago", pstr "900",
        pstr "v8", pstr "L8", pstr "2:00"]] : List Row).length ∧
     (∀ o ∈ videosJsonObjects [[pstr "@c8", pstr "id8", pstr "t8",
        pstr "1 day ago", pstr "900", pstr "v8", pstr "L8", pstr "2:00"]],
        o.map Prod.fst = videosHeader) ∧
     shortsDf [[pstr "@c8", pstr "id8", pstr "s8", pstr "900", pstr "w8",
        pstr "M8"]] =
      (shortsHeader, [[pstr "@c8", pstr "id8", pstr "s8", pstr "900",
        pstr "w8", pstr "M8"]]) ∧
     csvRowsOf (shortsCsvText [[pstr "@c8", pstr "id8", pstr "s8", pstr "900",
        pstr "w8", pstr "M8"]]) =
      shortsHeader :: (shortsJsonObjects [[pstr "@c8", pstr "id8", pstr "s8",
        pstr "900", pstr "w8", pstr "M8"]]).map (fun o => o.map Prod.snd) ∧
     (shortsJsonObjects [[pstr "@c8", pstr "id8", pstr "s8", pstr "900",
        pstr "w8", pstr "M8"]]).length =
      ([[pstr "@c8", pstr "id8", pstr "s8", pstr "900", pstr "w8",
        pstr "M8"]] : List Row).length ∧
     (∀ o ∈ shortsJsonObjects [[pstr "@c8", pstr "id8", pstr "s8", pstr "900",
        pstr "w8", pstr "M8"]], o.map Prod.fst = shortsHeader)) :=
  ⟨⟨by decide, by decide, by decide, by decide⟩,
    c8_csv_json_roundtrip
      [[pstr "@c8", pstr "id8", pstr "t8", pstr "1 day ago", pstr "900",
        pstr "v8", pstr "L8", pstr "2:00"]]
      [[pstr "@c8", pstr "id8", pstr "s8", pstr "900", pstr "w8", pstr "M8"]]
      (by decide) (by decide) (by decide) (by decide)⟩

/-! # Filesystem lemmas for the merge -/

theorem lookupFs_upsert_self {α : Type} :
    ∀ (fs : List (PyStr × α)) (w : PyStr × α),
      lookupFs (upsert fs w) w.1 = some w.2
  | [], w => by simp [upsert, lookupFs]
  | f :: rest, w => by
    unfold upsert
    by_cases h : f.1 = w.1
    · simp [h, lookupFs]
    · rw [if_neg h]
      simp only [lookupFs]
      rw [if_neg h]
      exact lookupFs_upsert_self rest w

theorem lookupFs_upsert_ne {α : Type} :
    ∀ (fs : List (PyStr × α)) (w : PyStr × α) {p : PyStr}, w.1 ≠ p →
      lookupFs (upsert fs w) p = lookupFs fs p
  | [], w, p, h => by simp [upsert, lookupFs, h]
  | f :: rest, w, p, h => by
    unfold upsert
    by_cases hf : f.1 = w.1
    · rw [if_pos hf]
      simp only [lookupFs]
      rw [if_neg h, if_neg (by rw [hf]; exact h)]
    · rw [if_neg hf]
      simp only [lookupFs]
      by_cases hp : f.1 = p
      · rw [if_pos hp, if_pos hp]
      · rw [if_neg hp, if_neg hp]
        exact lookupFs_upsert_ne rest w h

/-! # Claim C9: behavior of the summary merge -/

/-- Claim C9: over a listing with exactly three files whose names carry the
`_summary.csv` suffix and whose contents parse to one shared header and one
data row each, `merge_summary_files` writes the four aggregate files, each
carrying the three rows in listing (encounter) order; over a listing with
no matching file it writes nothing and returns (the no-op is reported);
and applying an aggregate write batch to any existing filesystem replaces
each aggregate file's previous content rather than appending to it. -/
theorem c9_merge_summary_files (n1 n2 n3 c1 c2 c3 : PyStr)
    (header : List PyStr) (r1 r2 r3 : Row)
    (h1 : pyEndsWith n1 summarySuffix = true)
    (h2 : pyEndsWith n2 summarySuffix = true)
    (h3 : pyEndsWith n3 summarySuffix = true)
    (hr1 : readCsvComma c1 = (header, [r1]))
    (hr2 : readCsvComma c2 = (header, [r2]))
    (hr3 : readCsvComma c3 = (header, [r3]))
    (listing0 : List (PyStr × PyStr))
    (hnone : ∀ f ∈ listing0, pyEndsWith f.1 summarySuffix = false)
    (fs : List (PyStr × (List PyStr × List Row)))
    (hdr2 : List PyStr) (rows2 : List Row) :
    merge_summary_files [(n1, c1), (n2, c2), (n3, c3)] =
      some (aggWrites header [r1, r2, r3]) ∧
    merge_summary_files listing0 = none ∧
    (∀ p ∈ [pstr "summary_all_channels.csv", pstr "summary_all_channels.txt",
        pstr "summary_all_channels.xlsx", pstr "summary_all_channels.json"],
      lookupFs (applyWrites fs (aggWrites hdr2 rows2)) p = some (hdr2, rows2)) := by
  refine ⟨?_, ?_, ?_⟩
  · unfold merge_summary_files
    have hfil : List.filter (fun f => pyEndsWith f.1 summarySuffix)
        [(n1, c1), (n2, c2), (n3, c3)] = [(n1, c1), (n2, c2), (n3, c3)] := by
      simp [List.filter_cons, h1, h2, h3]
    rw [hfil]
    simp [hr1, hr2, hr3]
  · unfold merge_summary_files
    rw [List.filter_eq_nil_iff.mpr (fun f hf => by rw [hnone f hf]; simp)]
    simp
  · intro p hp
    simp only [applyWrites, aggWrites, List.foldl]
    simp only [List.mem_cons] at hp
    have hjc : (pstr "summary_all_channels.json" : PyStr) ≠
        pstr "summary_all_channels.csv" := by decide
    have hxc : (pstr "summary_all_channels.xlsx" : PyStr) ≠
        pstr "summary_all_channels.csv" := by decide
    have htc : (pstr "summary_all_channels.txt" : PyStr) ≠
        pstr "summary_all_channels.csv" := by decide
    have hjt : (pstr "summary_all_channels.json" : PyStr) ≠
        pstr "summary_all_channels.txt" := by decide
    have hxt : (pstr "summary_all_channels.xlsx" : PyStr) ≠
        pstr "summary_all_channels.txt" := by decide
    have hjx : (pstr "summary_all_channels.json" : PyStr) ≠
        pstr "summary_all_channels.xlsx" := by decide
    rcases hp with rfl | rfl | rfl | rfl | hp
    · rw [lookupFs_upsert_ne _ _ hjc, lookupFs_upsert_ne _ _ hxc,
        lookupFs_upsert_ne _ _ htc]
      exact lookupFs_upsert_self fs _
    · rw [lookupFs_upsert_ne _ _ hjt, lookupFs_upsert_ne _ _ hxt]
      exact lookupFs_upsert_self _ _
    · rw [lookupFs_upsert_ne _ _ hjx]
      exact lookupFs_upsert_self _ _
    · exact lookupFs_upsert_self _ _
    · simp at hp

/-- Witness for `c9_merge_summary_files`: three one-row summary files, a
listing with no matching file, and a filesystem already holding an old
aggregate that gets replaced. -/
theorem c9_merge_summary_files_witness :
    (pyEndsWith (pstr "a_summary.csv") summarySuffix = true ∧
     pyEndsWith (pstr "b_summary.csv") summarySuffix = true ∧
     pyEndsWith (pstr "c_summary.csv") summarySuffix = true ∧
     readCsvComma (pstr "Channel,Identifier\n@a,i1\n") =
       ([pstr "Channel", pstr "Identifier"], [[pstr "@a", pstr "i1"]]) ∧
     readCsvComma (pstr "Channel,Identifier\n@b,i2\n") =
       ([pstr "Channel", pstr "Identifier"], [[pstr "@b", pstr "i2"]]) ∧
     readCsvComma (pstr "Channel,Identifier\n@c,i3\n") =
       ([pstr "Channel", pstr "Identifier"], [[pstr "@c", pstr "i3"]]) ∧
     (∀ f ∈ [((pstr "a_summary_20231206_153045.csv" : PyStr), (pstr "x" : PyStr))],
       pyEndsWith f.1 summarySuffix = false)) ∧
    (merge_summary_files
        [(pstr "a_summary.csv", pstr "Channel,Identifier\n@a,i1\n"),
         (pstr "b_summary.csv", pstr "Channel,Identifier\n@b,i2\n"),
         (pstr "c_summary.csv", pstr "Channel,Identifier\n@c,i3\n")] =
      some (aggWrites [pstr "Channel", pstr "Identifier"]
        [[pstr "@a", pstr "i1"], [pstr "@b", pstr "i2"], [pstr "@c", pstr "i3"]]) ∧
     merge_summary_files
        [((pstr "a_summary_20231206_153045.csv" : PyStr), (pstr "x" : PyStr))] =
      none ∧
     (∀ p ∈ [pstr "summary_all_channels.csv", pstr "summary_all_channels.txt",
         pstr "summary_all_channels.xlsx", pstr "summary_all_channels.json"],
       lookupFs (applyWrites
           [(pstr "summary_all_channels.csv",
             (([pstr "Old"] : List PyStr), ([] : List Row)))]
           (aggWrites [pstr "Channel"] [[pstr "@z"]])) p =
         some ([pstr "Channel"], [[pstr "@z"]]))) :=
  ⟨⟨by decide, by decide, by decide, by decide, by decide, by decide, by decide⟩,
    c9_merge_summary_files
      (pstr "a_summary.csv") (pstr "b_summary.csv") (pstr "c_summary.csv")
      (pstr "Channel,Identifier\n@a,i1\n") (pstr "Channel,Identifier\n@b,i2\n")
      (pstr "Channel,Identifier\n@c,i3\n")
      [pstr "Channel", pstr "Identifier"]
      [pstr "@a", pstr "i1"] [pstr "@b", pstr "i2"] [pstr "@c", pstr "i3"]
      (by decide) (by decide) (by decide) (by decide) (by decide) (by decide)
      [((pstr "a_summary_20231206_153045.csv" : PyStr), (pstr "x" : PyStr))]
      (by decide)
      [(pstr "summary_all_channels.csv",
        (([pstr "Old"] : List PyStr), ([] : List Row)))]
      [pstr "Channel"] [[pstr "@z"]]⟩

/-! # Claim C10: the export's summary filenames never match the merge -/

theorem summary_name_not_suffix {cname ts : PyStr} (hlen : ts.length = 15)
    (hdig : ∀ c ∈ ts.take 8, c.isDigit = true) :
    pyEndsWith (summaryCsvFileName cname ts) summarySuffix = false := by
  unfold pyEndsWith summaryCsvFileName summarySuffix
  apply decide_eq_false
  intro heq
  have h9 : (pstr "_summary_").length = 9 := by decide
  have h4 : (pstr ".csv").length = 4 := by decide
  have h12 : (pstr "_summary.csv").length = 12 := by decide
  rw [List.append_assoc, List.append_assoc] at heq
  have hidx : (cname ++ (pstr "_summary_" ++ (ts ++ pstr ".csv"))).length -
      (pstr "_summary.csv").length = cname.length + 16 := by
    simp only [List.length_append, h9, h4, h12, hlen]
    omega
  rw [hidx, List.drop_append 16,
    show (16 : Nat) = (pstr "_summary_").length + 7 by rw [h9],
    List.drop_append 7, List.drop_append_of_le_length (by omega)] at heq
  have h7lt : 7 < ts.length := by omega
  rw [List.drop_eq_getElem_cons h7lt, List.cons_append,
    show (pstr "_summary.csv") = '_' :: pstr "summary.csv" by decide] at heq
  injection heq with h7 hrest
  have hmem : ts[7] ∈ ts.take 8 := by
    have h78 : 7 < (ts.take 8).length := by
      rw [List.length_take]
      omega
    have hx := List.getElem_mem h78
    rwa [List.getElem_take] at hx
  have hd := hdig _ hmem
  rw [h7] at hd
  exact absurd hd (by decide)

/-- Claim C10: the per-channel summary CSV filename
`<cname>_summary_<timestamp>.csv` (with the run timestamp's `%Y%m%d` part
being eight digits, fifteen characters in all) never ends with the literal
`_summary.csv` suffix `merge_summary_files` selects by, so a merge over a
folder holding only files produced by that export selects zero files and
writes no aggregate. -/
theorem c10_summary_filename_mismatch (cname ts : PyStr)
    (hlen : ts.length = 15)
    (hdig : ∀ c ∈ ts.take 8, c.isDigit = true)
    (listing : List (PyStr × PyStr))
    (hprod : ∀ f ∈ listing, ∃ cn ts2, f.1 = summaryCsvFileName cn ts2 ∧
      ts2.length = 15 ∧ ∀ c ∈ ts2.take 8, c.isDigit = true) :
    pyEndsWith (summaryCsvFileName cname ts) summarySuffix = false ∧
    merge_summary_files listing = none := by
  refine ⟨summary_name_not_suffix hlen hdig, ?_⟩
  unfold merge_summary_files
  rw [List.filter_eq_nil_iff.mpr ?hnil]
  · simp
  case hnil =>
    intro f hf
    obtain ⟨cn, ts2, hname, hlen2, hdig2⟩ := hprod f hf
    rw [hname, summary_name_not_suffix hlen2 hdig2]
    simp

/-- Witness for `c10_summary_filename_mismatch` at a concrete channel, run
timestamp, and a folder holding exactly the file the summary export would
write. -/
theorem c10_summary_filename_mismatch_witness :
    ((pstr "20231206_153045" : PyStr).length = 15 ∧
     (∀ c ∈ (pstr "20231206_153045" : PyStr).take 8, c.isDigit = true)) ∧
    (pyEndsWith (summaryCsvFileName (pstr "@s10") (pstr "20231206_153045"))
        summarySuffix = false ∧
     merge_summary_files
        [(summaryCsvFileName (pstr "@s10") (pstr "20231206_153045"),
          pstr "Channel\n@s10\n")] = none) :=
  ⟨⟨by decide, by decide⟩,
    c10_summary_filename_mismatch (pstr "@s10") (pstr "20231206_153045")
      (by decide) (by decide)
      [(summaryCsvFileName (pstr "@s10") (pstr "20231206_153045"),
        pstr "Channel\n@s10\n")]
      (fun f hf => by
        rw [List.mem_singleton] at hf
        exact ⟨pstr "@s10", pstr "20231206_153045", by rw [hf], by decide,
          by decide⟩)⟩

end EagleEye
